import Mathlib

/-!
Amateur Radio Bearing Finder: the numeric core of `script.js`.

A shallow embedding of the pure functions of `src/script.js`
(`calculateBearing`, `calculateDistance`, `getBearingDirection`, the link budget
of `updateRadioCalculations`, `latLonToMaidenhead`, `maidenheadToLatLon`) and
theorems about them.

Conventions of the embedding.

* A JavaScript string is the list of its UTF-16 code units (`JSString`).
* The grid functions compute over `ℚ`: every decimal literal and every
  `+ - * / %` is read exactly.  `NaN` is `none` of `Option ℚ`.
* The geodesy and link-budget functions compute over `ℝ`, with `Math.sin`,
  `Math.cos`, `Math.sqrt`, `Math.atan2`, `Math.log10` read as the real functions.
* The definitions whose name ends in `F64` are the same functions as they are
  executed: every arithmetic operation is rounded to the nearest binary64
  number (`f64Round`), and `Math.sqrt` returns `NaN` on a negative number.
-/

namespace BearingFinder

/-! ## JavaScript primitives -/

/-- A JavaScript string, as the list of its UTF-16 code units. -/
abbrev JSString := List Nat

/-- Code units of a string literal whose characters all lie in the basic plane. -/
def jsStr (s : String) : JSString := s.toList.map Char.toNat

/-- A JavaScript number read exactly; `none` is `NaN`. -/
abbrev JSNum := Option ℚ

/-- The operator `x % m` on finite numbers with `m ≠ 0`: the remainder of the
division truncated toward zero, so the result has the sign of `x`. -/
def jsMod {α : Type} [LinearOrderedField α] [FloorRing α] (x m : α) : α :=
  if 0 ≤ x / m then x - m * ((⌊x / m⌋ : ℤ) : α) else x - m * ((⌈x / m⌉ : ℤ) : α)

/-- `Math.floor` on a finite number. -/
def mathFloor {α : Type} [LinearOrderedField α] [FloorRing α] (x : α) : ℤ := ⌊x⌋

/-- `Math.round` on a finite number: the nearest integer, ties toward `+∞`. -/
def mathRound {α : Type} [LinearOrderedField α] [FloorRing α] (x : α) : ℤ := ⌊x + 1 / 2⌋

/-- `String.fromCharCode(n)` for an integral `n`: the single code unit
`n mod 2^16`. -/
def fromCharCode (n : ℤ) : Nat := (n % 65536).toNat

/-- `n.toString()` for an integral number `n` below `10^21` in absolute value:
the decimal digits, with a leading minus sign (code unit 45) when negative. -/
def numberToString (n : ℤ) : JSString :=
  if n < 0 then 45 :: (Nat.toDigits 10 n.natAbs).map Char.toNat
  else (Nat.toDigits 10 n.natAbs).map Char.toNat

/-- `s.charCodeAt(i)`: the code unit at index `i`, `NaN` past the end. -/
def charCodeAt (s : JSString) (i : Nat) : JSNum := (s.get? i).map (fun c => (c : ℚ))

/-- `s.charAt(i)`: the one-unit string at index `i`, the empty string past the end. -/
def charAt (s : JSString) (i : Nat) : JSString := (s.get? i).toList

/-- `parseInt(s)` on a string of at most one code unit (what `charAt` returns):
the digit's value for `'0'..'9'`, `NaN` for anything else. -/
def parseInt (s : JSString) : JSNum :=
  match s with
  | [c] => if 48 ≤ c ∧ c ≤ 57 then some ((c : ℚ) - 48) else none
  | _ => none

/-! ## Maidenhead grid locator -/

/-- The object `{ lat, lon }` returned by `maidenheadToLatLon`. -/
structure LatLon where
  lat : JSNum
  lon : JSNum
  deriving DecidableEq, Repr

/-- `latLonToMaidenhead(lat, lon)` of `script.js`. -/
def latLonToMaidenhead (lat lon : ℚ) : JSString :=
  -- Field (A-R)
  let field1 : ℤ := mathFloor ((lon + 180) / 20)
  let field2 : ℤ := mathFloor ((lat + 90) / 10)
  -- Square (0-9)
  let square1 : ℤ := mathFloor (jsMod (lon + 180) 20 / 2)
  let square2 : ℤ := mathFloor (jsMod (lat + 90) 10)
  -- Subsquare (a-x)
  let subsquare1 : ℤ := mathFloor (jsMod (lon + 180) 2 * 12)
  let subsquare2 : ℤ := mathFloor (jsMod (lat + 90) 1 * 24)
  let field1Char : JSString := [fromCharCode (65 + field1)]
  let field2Char : JSString := [fromCharCode (65 + field2)]
  let square1Char : JSString := numberToString square1
  let square2Char : JSString := numberToString square2
  let subsquare1Char : JSString := [fromCharCode (97 + subsquare1)]
  let subsquare2Char : JSString := [fromCharCode (97 + subsquare2)]
  field1Char ++ field2Char ++ square1Char ++ square2Char ++ subsquare1Char ++ subsquare2Char

/-- `maidenheadToLatLon(grid)` of `script.js`. -/
def maidenheadToLatLon (grid : JSString) : LatLon :=
  if grid.length < 6 then { lat := some 0, lon := some 0 }
  else
    let field1 : JSNum := (charCodeAt grid 0).map (fun c => c - 65)
    let field2 : JSNum := (charCodeAt grid 1).map (fun c => c - 65)
    let square1 : JSNum := parseInt (charAt grid 2)
    let square2 : JSNum := parseInt (charAt grid 3)
    let subsquare1 : JSNum := (charCodeAt grid 4).map (fun c => c - 97)
    let subsquare2 : JSNum := (charCodeAt grid 5).map (fun c => c - 97)
    let lon : JSNum := do
      let f ← field1
      let s ← square1
      let ss ← subsquare1
      pure ((f * 20) + (s * 2) + (ss / 12) - 180)
    let lat : JSNum := do
      let f ← field2
      let s ← square2
      let ss ← subsquare2
      pure ((f * 10) + s + (ss / 24) - 90)
    { lat := lat, lon := lon }

/-- The `GridLocator` format of the specification, `[A-R][A-R][0-9][0-9][a-x][a-x]`:
exactly six code units with the positional ranges. -/
def isValidLocator (g : JSString) : Bool :=
  match g with
  | [a, b, c, d, e, f] =>
      decide (65 ≤ a ∧ a ≤ 82) && decide (65 ≤ b ∧ b ≤ 82) &&
      decide (48 ≤ c ∧ c ≤ 57) && decide (48 ≤ d ∧ d ≤ 57) &&
      decide (97 ≤ e ∧ e ≤ 120) && decide (97 ≤ f ∧ f ≤ 120)
  | _ => false

/-! ## Geodesy (over the real numbers) -/

/-- A point `{ lat, lon }`, in degrees. -/
structure GeoPoint where
  lat : ℝ
  lon : ℝ

/-- `Math.atan2(y, x)` on real numbers: the angle in `(-π, π]` of the point
`(x, y)`, and `0` at the origin. -/
noncomputable def atan2 (y x : ℝ) : ℝ :=
  if 0 < x then Real.arctan (y / x)
  else if x < 0 then
    (if 0 ≤ y then Real.arctan (y / x) + Real.pi else Real.arctan (y / x) - Real.pi)
  else if 0 < y then Real.pi / 2
  else if y < 0 then -(Real.pi / 2)
  else 0

/-- `Math.log10` on real numbers. -/
noncomputable def log10 (x : ℝ) : ℝ := Real.log x / Real.log 10

/-- `calculateBearing(point1, point2)` of `script.js`. -/
noncomputable def calculateBearing (point1 point2 : GeoPoint) : ℝ :=
  let lat1 := point1.lat * Real.pi / 180
  let lat2 := point2.lat * Real.pi / 180
  let deltaLon := (point2.lon - point1.lon) * Real.pi / 180
  let y := Real.sin deltaLon * Real.cos lat2
  let x := Real.cos lat1 * Real.sin lat2 - Real.sin lat1 * Real.cos lat2 * Real.cos deltaLon
  let bearing := atan2 y x * 180 / Real.pi
  let bearing := jsMod (bearing + 360) 360
  bearing

/-- The constant `a` of `calculateDistance`, the haversine term. -/
noncomputable def haversineA (point1 point2 : GeoPoint) : ℝ :=
  let lat1 := point1.lat * Real.pi / 180
  let lat2 := point2.lat * Real.pi / 180
  let deltaLat := (point2.lat - point1.lat) * Real.pi / 180
  let deltaLon := (point2.lon - point1.lon) * Real.pi / 180
  Real.sin (deltaLat / 2) * Real.sin (deltaLat / 2) +
    Real.cos lat1 * Real.cos lat2 *
    Real.sin (deltaLon / 2) * Real.sin (deltaLon / 2)

/-- `calculateDistance(point1, point2)` of `script.js` (Haversine formula). -/
noncomputable def calculateDistance (point1 point2 : GeoPoint) : ℝ :=
  let R : ℝ := 6371
  let a := haversineA point1 point2
  let c := 2 * atan2 (Real.sqrt a) (Real.sqrt (1 - a))
  let distance := R * c
  distance

/-- The array `directions` of `getBearingDirection`. -/
def directions : List String :=
  ["N", "NNE", "NE", "ENE", "E", "ESE", "SE", "SSE", "S", "SSW", "SW", "WSW", "W", "WNW",
    "NW", "NNW"]

/-- The constant `index` of `getBearingDirection`: `Math.round(bearing / 22.5) % 16`,
the remainder of two integral numbers being the truncated integer remainder. -/
def bearingIndex {α : Type} [LinearOrderedField α] [FloorRing α] (bearing : α) : ℤ :=
  (mathRound (bearing / 22.5)).tmod 16

/-- `getBearingDirection(bearing)` of `script.js`; `none` is `undefined`, the
value of `directions[index]` when `index` is not an index of the array. -/
def getBearingDirection {α : Type} [LinearOrderedField α] [FloorRing α] (bearing : α) :
    Option String :=
  let index := bearingIndex bearing
  if index < 0 then none else directions.get? index.toNat

/-! ## Link budget (over the real numbers) -/

/-- The QSO probability of `updateRadioCalculations` as a function of the
signal strength: the chain of `<` tests against ascending thresholds. -/
def qsoProbability {α : Type} [LinearOrderedField α] (signalStrength : α) : Nat :=
  if signalStrength < -120 then 10
  else if signalStrength < -100 then 30
  else if signalStrength < -80 then 60
  else if signalStrength < -60 then 80
  else 100

/-- The four values `updateRadioCalculations` writes to the display, before
formatting. -/
structure RadioCalculations where
  freeSpaceLoss : ℝ
  pathLoss : ℝ
  signalStrength : ℝ
  qsoProbability : Nat

/-- The expression `parseFloat(v) || d`: the default `d` replaces a parse
result that is `NaN` (`none`) or zero. -/
noncomputable def orDefault (v : Option ℝ) (d : ℝ) : ℝ :=
  match v with
  | some x => if x = 0 then d else x
  | none => d

/-- The computation of `updateRadioCalculations` of `script.js`, from the
parse results of the three input fields and the distance between the two
locations. -/
noncomputable def updateRadioCalculations (frequencyField powerField antennaField : Option ℝ)
    (distance : ℝ) : RadioCalculations :=
  let frequency := orDefault frequencyField 146.52
  let power := orDefault powerField 5
  let _antennaHeight := orDefault antennaField 2
  -- Calculate free space loss
  let freeSpaceLoss := 32.44 + 20 * log10 frequency + 20 * log10 distance
  -- Calculate path loss (simplified - add terrain factor)
  let terrainFactor := min (distance * 0.1) 10
  let pathLoss := freeSpaceLoss + terrainFactor
  -- Calculate signal strength
  let antennaGain : ℝ := 2.15
  let signalStrength := 10 * log10 (power * 1000) - pathLoss + antennaGain
  -- Calculate QSO probability (simplified)
  { freeSpaceLoss := freeSpaceLoss
    pathLoss := pathLoss
    signalStrength := signalStrength
    qsoProbability := qsoProbability signalStrength }

/-! ## Double-precision arithmetic -/

/-- Round a rational to the nearest integer, ties to the even integer. -/
def roundHalfEven (m : ℚ) : ℤ :=
  if m - (⌊m⌋ : ℚ) < 1 / 2 then ⌊m⌋
  else if 1 / 2 < m - (⌊m⌋ : ℚ) then ⌊m⌋ + 1
  else if ⌊m⌋ % 2 = 0 then ⌊m⌋ else ⌊m⌋ + 1

/-- The binary64 number nearest to `q`: round to nearest, ties to even, with a
53-bit significand.  The exponent range is left unbounded: no overflow and no
subnormal number arises at the magnitudes the grid functions compute with. -/
def f64Round (q : ℚ) : ℚ :=
  if q = 0 then 0
  else (roundHalfEven (q / (2 : ℚ) ^ (Int.log 2 |q| - 52)) : ℚ) * (2 : ℚ) ^ (Int.log 2 |q| - 52)

/-- The operator `+` on binary64 numbers. -/
def f64Add (a b : ℚ) : ℚ := f64Round (a + b)

/-- The operator `-` on binary64 numbers. -/
def f64Sub (a b : ℚ) : ℚ := f64Round (a - b)

/-- The operator `*` on binary64 numbers. -/
def f64Mul (a b : ℚ) : ℚ := f64Round (a * b)

/-- The operator `/` on binary64 numbers, for a divisor other than zero. -/
def f64Div (a b : ℚ) : ℚ := f64Round (a / b)

/-- `latLonToMaidenheadF64(lat, lon)` of `script.js` as it is executed: every
`+`, `*` and `/` is rounded to binary64; the operator `%` and `Math.floor`
are exact on binary64 numbers. -/
def latLonToMaidenheadF64 (lat lon : ℚ) : JSString :=
  -- Field (A-R)
  let field1 : ℤ := mathFloor (f64Div (f64Add lon 180) 20)
  let field2 : ℤ := mathFloor (f64Div (f64Add lat 90) 10)
  -- Square (0-9)
  let square1 : ℤ := mathFloor (f64Div (jsMod (f64Add lon 180) 20) 2)
  let square2 : ℤ := mathFloor (jsMod (f64Add lat 90) 10)
  -- Subsquare (a-x)
  let subsquare1 : ℤ := mathFloor (f64Mul (jsMod (f64Add lon 180) 2) 12)
  let subsquare2 : ℤ := mathFloor (f64Mul (jsMod (f64Add lat 90) 1) 24)
  let field1Char : JSString := [fromCharCode (65 + field1)]
  let field2Char : JSString := [fromCharCode (65 + field2)]
  let square1Char : JSString := numberToString square1
  let square2Char : JSString := numberToString square2
  let subsquare1Char : JSString := [fromCharCode (97 + subsquare1)]
  let subsquare2Char : JSString := [fromCharCode (97 + subsquare2)]
  field1Char ++ field2Char ++ square1Char ++ square2Char ++ subsquare1Char ++ subsquare2Char

/-- `maidenheadToLatLonF64(grid)` of `script.js` as it is executed: every `+`,
`-`, `*` and `/` is rounded to binary64. -/
def maidenheadToLatLonF64 (grid : JSString) : LatLon :=
  if grid.length < 6 then { lat := some 0, lon := some 0 }
  else
    let field1 : JSNum := (charCodeAt grid 0).map (fun c => f64Sub c 65)
    let field2 : JSNum := (charCodeAt grid 1).map (fun c => f64Sub c 65)
    let square1 : JSNum := parseInt (charAt grid 2)
    let square2 : JSNum := parseInt (charAt grid 3)
    let subsquare1 : JSNum := (charCodeAt grid 4).map (fun c => f64Sub c 97)
    let subsquare2 : JSNum := (charCodeAt grid 5).map (fun c => f64Sub c 97)
    let lon : JSNum := do
      let f ← field1
      let s ← square1
      let ss ← subsquare1
      pure (f64Sub (f64Add (f64Add (f64Mul f 20) (f64Mul s 2)) (f64Div ss 12)) 180)
    let lat : JSNum := do
      let f ← field2
      let s ← square2
      let ss ← subsquare2
      pure (f64Sub (f64Add (f64Add (f64Mul f 10) s) (f64Div ss 24)) 90)
    { lat := lat, lon := lon }

/-! ## Geodesy in double precision -/

/-- Round a real number to the nearest integer, ties to the even integer. -/
noncomputable def roundHalfEvenReal (m : ℝ) : ℤ :=
  if m - (⌊m⌋ : ℝ) < 1 / 2 then ⌊m⌋
  else if 1 / 2 < m - (⌊m⌋ : ℝ) then ⌊m⌋ + 1
  else if ⌊m⌋ % 2 = 0 then ⌊m⌋ else ⌊m⌋ + 1

/-- The binary64 number nearest to the real number `r` (round to nearest, ties
to even, 53-bit significand, exponent range unbounded). -/
noncomputable def f64RoundReal (r : ℝ) : ℚ :=
  if r = 0 then 0
  else (roundHalfEvenReal (r / (2 : ℝ) ^ (Int.log 2 |r| - 52)) : ℚ)
    * (2 : ℚ) ^ (Int.log 2 |r| - 52)

/-- The constant `Math.PI`: the binary64 number nearest to `π`. -/
def mathPI : ℚ := 884279719003555 / 281474976710656

/-- `Math.sin` on a binary64 number, read as the binary64 number nearest to
the sine. -/
noncomputable def mathSin (x : ℚ) : ℚ := f64RoundReal (Real.sin (x : ℝ))

/-- `Math.cos` on a binary64 number, read as the binary64 number nearest to
the cosine. -/
noncomputable def mathCos (x : ℚ) : ℚ := f64RoundReal (Real.cos (x : ℝ))

/-- `Math.sqrt`: `NaN` on `NaN` and on a negative number, otherwise the
binary64 number nearest to the square root. -/
noncomputable def mathSqrt (x : JSNum) : JSNum :=
  x.bind (fun v => if v < 0 then none else some (f64RoundReal (Real.sqrt (v : ℝ))))

/-- `Math.atan2`: `NaN` when an argument is `NaN`, otherwise the binary64
number nearest to the angle. -/
noncomputable def mathAtan2 (y x : JSNum) : JSNum :=
  y.bind (fun a => x.bind (fun b => some (f64RoundReal (atan2 (a : ℝ) (b : ℝ)))))

/-- A point `{ lat, lon }` whose coordinates are binary64 numbers. -/
structure GeoPointF64 where
  lat : ℚ
  lon : ℚ

/-- The constant `a` of `calculateDistance` as it is executed, in double
precision. -/
noncomputable def haversineAF64 (point1 point2 : GeoPointF64) : ℚ :=
  let lat1 := f64Div (f64Mul point1.lat mathPI) 180
  let lat2 := f64Div (f64Mul point2.lat mathPI) 180
  let deltaLat := f64Div (f64Mul (f64Sub point2.lat point1.lat) mathPI) 180
  let deltaLon := f64Div (f64Mul (f64Sub point2.lon point1.lon) mathPI) 180
  f64Add (f64Mul (mathSin (f64Div deltaLat 2)) (mathSin (f64Div deltaLat 2)))
    (f64Mul (f64Mul (f64Mul (mathCos lat1) (mathCos lat2))
      (mathSin (f64Div deltaLon 2))) (mathSin (f64Div deltaLon 2)))

/-- `calculateDistance(point1, point2)` of `script.js` as it is executed, in
double precision; `none` is `NaN`. -/
noncomputable def calculateDistanceF64 (point1 point2 : GeoPointF64) : JSNum :=
  let R : ℚ := 6371
  let a := haversineAF64 point1 point2
  let c := (mathAtan2 (mathSqrt (some a)) (mathSqrt (some (f64Sub 1 a)))).map
    (fun t => f64Mul 2 t)
  let distance := c.map (fun t => f64Mul R t)
  distance

/-! ## Lemmas on the primitives -/

theorem jsMod_of_nonneg {α : Type} [LinearOrderedField α] [FloorRing α] (x m : α)
    (hx : 0 ≤ x) (hm : 0 < m) : jsMod x m = x - m * ((⌊x / m⌋ : ℤ) : α) := by
  unfold jsMod
  rw [if_pos (div_nonneg hx hm.le)]

theorem jsMod_of_decomp {α : Type} [LinearOrderedField α] [FloorRing α] (x m r : α) (k : ℤ)
    (hm : 0 < m) (hk : 0 ≤ k) (hr0 : 0 ≤ r) (hr : r < m) (hx : x = m * k + r) :
    jsMod x m = r := by
  have hdiv : x / m = k + r / m := by
    rw [hx]; field_simp; ring
  have hk' : (0 : α) ≤ (k : α) := by exact_mod_cast hk
  have hrm0 : 0 ≤ r / m := div_nonneg hr0 hm.le
  have hrm1 : r / m < 1 := (div_lt_one hm).2 hr
  have hx0 : 0 ≤ x := by
    rw [hx]; have := mul_nonneg hm.le hk'; linarith
  have hfl : ⌊x / m⌋ = k := by
    rw [Int.floor_eq_iff, hdiv]
    constructor <;> linarith
  rw [jsMod_of_nonneg x m hx0 hm, hfl, hx]
  ring

theorem jsMod_nonneg {α : Type} [LinearOrderedField α] [FloorRing α] (x m : α)
    (hx : 0 ≤ x) (hm : 0 < m) : 0 ≤ jsMod x m := by
  rw [jsMod_of_nonneg x m hx hm]
  have h := Int.floor_le (x / m)
  have h2 : ((⌊x / m⌋ : ℤ) : α) * m ≤ x := (le_div_iff₀ hm).1 h
  linarith

theorem jsMod_lt {α : Type} [LinearOrderedField α] [FloorRing α] (x m : α)
    (hx : 0 ≤ x) (hm : 0 < m) : jsMod x m < m := by
  rw [jsMod_of_nonneg x m hx hm]
  have h := Int.lt_floor_add_one (x / m)
  have h2 : x < (((⌊x / m⌋ : ℤ) : α) + 1) * m := (div_lt_iff₀ hm).1 h
  linarith

theorem fromCharCode_of_range (n : ℤ) (h0 : 0 ≤ n) (h1 : n < 65536) :
    fromCharCode n = n.toNat := by
  unfold fromCharCode
  rw [Int.emod_eq_of_lt h0 h1]

theorem numberToString_digit (n : ℤ) (h0 : 0 ≤ n) (h1 : n < 10) :
    numberToString n = [(48 + n).toNat] := by
  interval_cases n <;> rfl

/-! ## Lemmas on double-precision rounding -/

theorem roundHalfEven_intCast (z : ℤ) : roundHalfEven (z : ℚ) = z := by
  unfold roundHalfEven
  simp

theorem roundHalfEven_error (m : ℚ) : |((roundHalfEven m : ℤ) : ℚ) - m| ≤ 1 / 2 := by
  have h0 := Int.floor_le m
  have h1 := Int.lt_floor_add_one m
  unfold roundHalfEven
  split_ifs with a b c
  · rw [abs_le]; constructor <;> linarith
  · rw [abs_le]; push_cast; constructor <;> linarith
  · rw [abs_le]; constructor <;> linarith
  · rw [abs_le]; push_cast; constructor <;> linarith

theorem roundHalfEven_of_lt (m : ℚ) (f : ℤ) (h1 : (f : ℚ) ≤ m) (h2 : m < f + 1 / 2) :
    roundHalfEven m = f := by
  have hf : ⌊m⌋ = f := by
    rw [Int.floor_eq_iff]; constructor <;> linarith
  unfold roundHalfEven
  rw [hf, if_pos (by linarith)]

theorem roundHalfEven_of_gt (m : ℚ) (f : ℤ) (h1 : (f : ℚ) + 1 / 2 < m) (h2 : m < f + 1) :
    roundHalfEven m = f + 1 := by
  have hf : ⌊m⌋ = f := by
    rw [Int.floor_eq_iff]; constructor <;> linarith
  unfold roundHalfEven
  rw [hf, if_neg (by linarith), if_pos (by linarith)]

theorem roundHalfEven_tie_even (m : ℚ) (f : ℤ) (h : m = f + 1 / 2) (hf2 : f % 2 = 0) :
    roundHalfEven m = f := by
  have hf : ⌊m⌋ = f := by
    rw [Int.floor_eq_iff]; constructor <;> linarith
  unfold roundHalfEven
  rw [hf, if_neg (by linarith), if_neg (by linarith), if_pos hf2]

theorem roundHalfEven_tie_odd (m : ℚ) (f : ℤ) (h : m = f + 1 / 2) (hf2 : f % 2 = 1) :
    roundHalfEven m = f + 1 := by
  have hf : ⌊m⌋ = f := by
    rw [Int.floor_eq_iff]; constructor <;> linarith
  unfold roundHalfEven
  rw [hf, if_neg (by linarith), if_neg (by linarith), if_neg (by omega)]

theorem int_log_two_eq (r : ℚ) (e : ℤ) (h1 : (2 : ℚ) ^ e ≤ r) (h2 : r < (2 : ℚ) ^ (e + 1)) :
    Int.log 2 r = e := by
  have hr : 0 < r := lt_of_lt_of_le (by positivity) h1
  have a : e ≤ Int.log 2 r := by
    rw [← Int.zpow_le_iff_le_log (by norm_num) hr]; exact_mod_cast h1
  have b : Int.log 2 r < e + 1 := by
    rw [← Int.lt_zpow_iff_log_lt (by norm_num) hr]; exact_mod_cast h2
  omega

theorem f64Round_zero : f64Round 0 = 0 := by
  simp [f64Round]

/-- Evaluation of `f64Round` from the binade of `q`. -/
theorem f64Round_of_binade (q : ℚ) (e : ℤ) (h1 : (2 : ℚ) ^ e ≤ |q|)
    (h2 : |q| < (2 : ℚ) ^ (e + 1)) :
    f64Round q = (roundHalfEven (q / (2 : ℚ) ^ (e - 52)) : ℚ) * (2 : ℚ) ^ (e - 52) := by
  have hq : q ≠ 0 := by
    intro h; rw [h, abs_zero] at h1
    exact absurd h1 (not_le.2 (by positivity))
  unfold f64Round
  rw [if_neg hq, int_log_two_eq |q| e h1 h2]

/-- Relative error of `f64Round`: at most `2⁻⁵³`. -/
theorem f64Round_error (q : ℚ) : |f64Round q - q| ≤ |q| / 2 ^ 53 := by
  by_cases hq : q = 0
  · subst hq; simp [f64Round_zero]
  · have hpos : 0 < |q| := abs_pos.2 hq
    have h1 : (2 : ℚ) ^ (Int.log 2 |q|) ≤ |q| := by
      have := Int.zpow_log_le_self (b := 2) (r := |q|) (by norm_num) hpos
      exact_mod_cast this
    have h2 : |q| < (2 : ℚ) ^ (Int.log 2 |q| + 1) := by
      have := Int.lt_zpow_succ_log_self (b := 2) (by norm_num) |q|
      exact_mod_cast this
    rw [f64Round_of_binade q _ h1 h2]
    set e := Int.log 2 |q| with he
    have hu : (0 : ℚ) < 2 ^ (e - 52) := by positivity
    have herr := roundHalfEven_error (q / (2 : ℚ) ^ (e - 52))
    have key : (roundHalfEven (q / (2 : ℚ) ^ (e - 52)) : ℚ) * (2 : ℚ) ^ (e - 52) - q
        = ((roundHalfEven (q / (2 : ℚ) ^ (e - 52)) : ℚ) - q / (2 : ℚ) ^ (e - 52))
          * (2 : ℚ) ^ (e - 52) := by
      field_simp
    rw [key, abs_mul, abs_of_pos hu]
    have hsplit : (2 : ℚ) ^ e = 2 ^ (e - 52) * 2 ^ 52 := by
      rw [← zpow_natCast, ← zpow_add₀ (by norm_num : (2 : ℚ) ≠ 0)]; norm_num
    have : |(roundHalfEven (q / (2 : ℚ) ^ (e - 52)) : ℚ) - q / (2 : ℚ) ^ (e - 52)|
        * (2 : ℚ) ^ (e - 52) ≤ 1 / 2 * (2 : ℚ) ^ (e - 52) :=
      mul_le_mul_of_nonneg_right herr hu.le
    rw [le_div_iff₀ (by positivity)]
    nlinarith

/-- Integers below `2⁵³` in absolute value are binary64 numbers. -/
theorem f64Round_intCast (n : ℤ) (hn : |n| < 2 ^ 53) : f64Round (n : ℚ) = n := by
  by_cases h0 : n = 0
  · subst h0; simp [f64Round_zero]
  · have hq : (n : ℚ) ≠ 0 := by exact_mod_cast h0
    have hpos : 0 < |(n : ℚ)| := abs_pos.2 hq
    have h1 : (2 : ℚ) ^ (Int.log 2 |(n : ℚ)|) ≤ |(n : ℚ)| := by
      have := Int.zpow_log_le_self (b := 2) (r := |(n : ℚ)|) (by norm_num) hpos
      exact_mod_cast this
    have h2 : |(n : ℚ)| < (2 : ℚ) ^ (Int.log 2 |(n : ℚ)| + 1) := by
      have := Int.lt_zpow_succ_log_self (b := 2) (by norm_num) |(n : ℚ)|
      exact_mod_cast this
    rw [f64Round_of_binade _ _ h1 h2]
    set e := Int.log 2 |(n : ℚ)| with he
    have hlt : (2 : ℚ) ^ e < 2 ^ (53 : ℤ) := by
      have hn' : |(n : ℚ)| < 9007199254740992 := by
        have : ((|n| : ℤ) : ℚ) < ((2 ^ 53 : ℤ) : ℚ) := by exact_mod_cast hn
        simpa using this
      have : |(n : ℚ)| < 2 ^ (53 : ℤ) := by
        norm_num
        exact hn'
      exact lt_of_le_of_lt h1 this
    have he53 : e < 53 := (zpow_lt_zpow_iff_right₀ (by norm_num : (1 : ℚ) < 2)).1 hlt
    obtain ⟨k, hk⟩ : ∃ k : ℕ, (k : ℤ) = 52 - e := ⟨(52 - e).toNat, by omega⟩
    have hpow : (2 : ℚ) ^ (e - 52) = ((2 : ℚ) ^ k)⁻¹ := by
      rw [← zpow_natCast, hk, ← zpow_neg]; congr 1; omega
    have hm : (n : ℚ) / (2 : ℚ) ^ (e - 52) = ((n * 2 ^ k : ℤ) : ℚ) := by
      rw [hpow]; push_cast; field_simp
    rw [hm, roundHalfEven_intCast, hpow]
    push_cast
    field_simp

/-- Absolute error of `f64Round` on a bounded argument. -/
theorem f64Round_bounds (q B : ℚ) (h : |q| ≤ B) :
    q - B / 2 ^ 53 ≤ f64Round q ∧ f64Round q ≤ q + B / 2 ^ 53 := by
  have h1 := f64Round_error q
  have h2 : |q| / 2 ^ 53 ≤ B / 2 ^ 53 := by
    apply div_le_div_of_nonneg_right h; positivity
  have h3 := abs_le.1 (le_trans h1 h2)
  constructor <;> linarith [h3.1, h3.2]

/-- Evaluation of `f64Round` on a positive argument rounded down. -/
theorem f64Round_eval_down (q : ℚ) (e f : ℤ) (h1 : (2 : ℚ) ^ e ≤ q)
    (h2 : q < (2 : ℚ) ^ (e + 1)) (h3 : (f : ℚ) ≤ q / (2 : ℚ) ^ (e - 52))
    (h4 : q / (2 : ℚ) ^ (e - 52) < f + 1 / 2) :
    f64Round q = (f : ℚ) * (2 : ℚ) ^ (e - 52) := by
  have hq : 0 ≤ q := le_trans (by positivity) h1
  rw [f64Round_of_binade q e (by rwa [abs_of_nonneg hq]) (by rwa [abs_of_nonneg hq]),
    roundHalfEven_of_lt _ f h3 h4]

/-- Evaluation of `f64Round` on a positive argument rounded up. -/
theorem f64Round_eval_up (q : ℚ) (e f : ℤ) (h1 : (2 : ℚ) ^ e ≤ q)
    (h2 : q < (2 : ℚ) ^ (e + 1)) (h3 : (f : ℚ) + 1 / 2 < q / (2 : ℚ) ^ (e - 52))
    (h4 : q / (2 : ℚ) ^ (e - 52) < f + 1) :
    f64Round q = ((f + 1 : ℤ) : ℚ) * (2 : ℚ) ^ (e - 52) := by
  have hq : 0 ≤ q := le_trans (by positivity) h1
  rw [f64Round_of_binade q e (by rwa [abs_of_nonneg hq]) (by rwa [abs_of_nonneg hq]),
    roundHalfEven_of_gt _ f h3 h4]

/-- Evaluation of `f64Round` on a positive argument halfway between two
binary64 numbers, the upper one having the even significand. -/
theorem f64Round_eval_tie_up (q : ℚ) (e f : ℤ) (h1 : (2 : ℚ) ^ e ≤ q)
    (h2 : q < (2 : ℚ) ^ (e + 1)) (h3 : q / (2 : ℚ) ^ (e - 52) = f + 1 / 2)
    (h4 : f % 2 = 1) :
    f64Round q = ((f + 1 : ℤ) : ℚ) * (2 : ℚ) ^ (e - 52) := by
  have hq : 0 ≤ q := le_trans (by positivity) h1
  rw [f64Round_of_binade q e (by rwa [abs_of_nonneg hq]) (by rwa [abs_of_nonneg hq]),
    roundHalfEven_tie_odd _ f h3 h4]

/-- Rounding commutes with negation. -/
theorem roundHalfEven_neg (m : ℚ) : roundHalfEven (-m) = -roundHalfEven m := by
  have h0 := Int.floor_le m
  have h1 := Int.lt_floor_add_one m
  rcases h0.eq_or_lt with h | h
  · have e1 : -m = ((-⌊m⌋ : ℤ) : ℚ) := by push_cast; linarith
    have e2 : roundHalfEven m = ⌊m⌋ := by
      conv_lhs => rw [← h]
      exact roundHalfEven_intCast _
    rw [e1, roundHalfEven_intCast, e2]
  · rcases lt_trichotomy m ((⌊m⌋ : ℚ) + 1 / 2) with c | c | c
    · rw [roundHalfEven_of_lt m ⌊m⌋ h0 c,
        roundHalfEven_of_gt (-m) (-⌊m⌋ - 1) (by push_cast; linarith) (by push_cast; linarith)]
      ring
    · rcases Int.emod_two_eq_zero_or_one ⌊m⌋ with p | p
      · rw [roundHalfEven_tie_even m ⌊m⌋ c p,
          roundHalfEven_tie_odd (-m) (-⌊m⌋ - 1) (by push_cast; linarith) (by omega)]
        ring
      · rw [roundHalfEven_tie_odd m ⌊m⌋ c p,
          roundHalfEven_tie_even (-m) (-⌊m⌋ - 1) (by push_cast; linarith) (by omega)]
        ring
    · rw [roundHalfEven_of_gt m ⌊m⌋ c h1,
        roundHalfEven_of_lt (-m) (-⌊m⌋ - 1) (by push_cast; linarith) (by push_cast; linarith)]
      ring

theorem f64Round_neg (q : ℚ) : f64Round (-q) = -f64Round q := by
  unfold f64Round
  by_cases h : q = 0
  · simp [h]
  · rw [if_neg h, if_neg (neg_ne_zero.2 h), abs_neg, neg_div, roundHalfEven_neg]
    push_cast
    ring

/-- Evaluation of `f64Round` on a positive argument halfway between two
binary64 numbers, the lower one having the even significand. -/
theorem f64Round_eval_tie_down (q : ℚ) (e f : ℤ) (h1 : (2 : ℚ) ^ e ≤ q)
    (h2 : q < (2 : ℚ) ^ (e + 1)) (h3 : q / (2 : ℚ) ^ (e - 52) = f + 1 / 2)
    (h4 : f % 2 = 0) :
    f64Round q = (f : ℚ) * (2 : ℚ) ^ (e - 52) := by
  have hq : 0 ≤ q := le_trans (by positivity) h1
  rw [f64Round_of_binade q e (by rwa [abs_of_nonneg hq]) (by rwa [abs_of_nonneg hq]),
    roundHalfEven_tie_even _ f h3 h4]

/-- The value of `f64Round` at a negative `q`, from its value at `p = -q`. -/
theorem f64Round_of_neg (q p r r' : ℚ) (hp : p = -q) (h : f64Round p = r') (hr : r = -r') :
    f64Round q = r := by
  rw [hr, ← h, hp, f64Round_neg, neg_neg]

/-! ## Lemmas on the grid arithmetic -/

/-- Longitude axis, digits from a bracket: when `x` lies in the cell
`[20 F + 2 S + T/12, 20 F + 2 S + T/12 + 1/12)`, the three indices computed by
`latLonToMaidenhead` are `F`, `S`, `T`. -/
theorem lon_digits_exact (F S T : ℤ) (hF : 0 ≤ F) (hS0 : 0 ≤ S) (hS : S < 10)
    (hT0 : 0 ≤ T) (hT : T < 24) (x : ℚ) (hlo : 20 * (F : ℚ) + 2 * S + T / 12 ≤ x)
    (hhi : x < 20 * (F : ℚ) + 2 * S + T / 12 + 1 / 12) :
    mathFloor (x / 20) = F ∧ mathFloor (jsMod x 20 / 2) = S ∧
      mathFloor (jsMod x 2 * 12) = T := by
  have hS0' : (0 : ℚ) ≤ S := by exact_mod_cast hS0
  have hS' : (S : ℚ) ≤ 9 := by exact_mod_cast (by omega : S ≤ 9)
  have hT0' : (0 : ℚ) ≤ T := by exact_mod_cast hT0
  have hT' : (T : ℚ) ≤ 23 := by exact_mod_cast (by omega : T ≤ 23)
  have hm20 : jsMod x 20 = x - 20 * F :=
    jsMod_of_decomp x 20 (x - 20 * F) F (by norm_num) hF (by linarith) (by linarith)
      (by ring)
  have hm2 : jsMod x 2 = x - 20 * F - 2 * S :=
    jsMod_of_decomp x 2 (x - 20 * F - 2 * S) (10 * F + S) (by norm_num) (by omega)
      (by linarith) (by linarith) (by push_cast; ring)
  refine ⟨?_, ?_, ?_⟩
  · unfold mathFloor
    rw [Int.floor_eq_iff]
    constructor <;> linarith
  · unfold mathFloor
    rw [Int.floor_eq_iff, hm20]
    constructor <;> linarith
  · unfold mathFloor
    rw [Int.floor_eq_iff, hm2]
    constructor <;> linarith

/-- Latitude axis, digits from a bracket: when `x` lies in the cell
`[10 F + S + T/24, 10 F + S + T/24 + 1/24)`, the three indices computed by
`latLonToMaidenhead` are `F`, `S`, `T`. -/
theorem lat_digits_exact (F S T : ℤ) (hF : 0 ≤ F) (hS0 : 0 ≤ S) (hS : S < 10)
    (hT0 : 0 ≤ T) (hT : T < 24) (x : ℚ) (hlo : 10 * (F : ℚ) + S + T / 24 ≤ x)
    (hhi : x < 10 * (F : ℚ) + S + T / 24 + 1 / 24) :
    mathFloor (x / 10) = F ∧ mathFloor (jsMod x 10) = S ∧
      mathFloor (jsMod x 1 * 24) = T := by
  have hS0' : (0 : ℚ) ≤ S := by exact_mod_cast hS0
  have hS' : (S : ℚ) ≤ 9 := by exact_mod_cast (by omega : S ≤ 9)
  have hT0' : (0 : ℚ) ≤ T := by exact_mod_cast hT0
  have hT' : (T : ℚ) ≤ 23 := by exact_mod_cast (by omega : T ≤ 23)
  have hm10 : jsMod x 10 = x - 10 * F :=
    jsMod_of_decomp x 10 (x - 10 * F) F (by norm_num) hF (by linarith) (by linarith)
      (by ring)
  have hm1 : jsMod x 1 = x - 10 * F - S :=
    jsMod_of_decomp x 1 (x - 10 * F - S) (10 * F + S) (by norm_num) (by omega)
      (by linarith) (by linarith) (by push_cast; ring)
  refine ⟨?_, ?_, ?_⟩
  · unfold mathFloor
    rw [Int.floor_eq_iff]
    constructor <;> linarith
  · unfold mathFloor
    rw [Int.floor_eq_iff, hm10]
    constructor <;> linarith
  · unfold mathFloor
    rw [Int.floor_eq_iff, hm1]
    constructor <;> linarith

/-- Longitude axis on `[0, 360)`: the three indices are in range and bracket
`x` within one twelfth of a degree. -/
theorem lon_digits_bracket (x : ℚ) (h0 : 0 ≤ x) (h1 : x < 360) :
    (0 ≤ mathFloor (x / 20) ∧ mathFloor (x / 20) < 18) ∧
    (0 ≤ mathFloor (jsMod x 20 / 2) ∧ mathFloor (jsMod x 20 / 2) < 10) ∧
    (0 ≤ mathFloor (jsMod x 2 * 12) ∧ mathFloor (jsMod x 2 * 12) < 24) ∧
    ((mathFloor (x / 20) : ℚ) * 20 + (mathFloor (jsMod x 20 / 2) : ℚ) * 2
        + (mathFloor (jsMod x 2 * 12) : ℚ) / 12 ≤ x) ∧
    (x < (mathFloor (x / 20) : ℚ) * 20 + (mathFloor (jsMod x 20 / 2) : ℚ) * 2
        + (mathFloor (jsMod x 2 * 12) : ℚ) / 12 + 1 / 12) := by
  have a0 := jsMod_nonneg x 20 h0 (by norm_num)
  have a1 := jsMod_lt x 20 h0 (by norm_num)
  have b0 := jsMod_nonneg x 2 h0 (by norm_num)
  have b1 := jsMod_lt x 2 h0 (by norm_num)
  have e20 := jsMod_of_nonneg x 20 h0 (by norm_num)
  have e2 := jsMod_of_nonneg x 2 h0 (by norm_num)
  have hs : (⌊jsMod x 20 / 2⌋ : ℤ) = ⌊x / 2⌋ - 10 * ⌊x / 20⌋ := by
    have : jsMod x 20 / 2 = x / 2 - ((10 * ⌊x / 20⌋ : ℤ) : ℚ) := by
      rw [e20]; push_cast; ring
    rw [this, Int.floor_sub_int]
  have hsq : ((⌊jsMod x 20 / 2⌋ : ℤ) : ℚ) = (⌊x / 2⌋ : ℚ) - 10 * (⌊x / 20⌋ : ℚ) := by
    rw [hs]; push_cast; ring
  have t0 := Int.floor_le (jsMod x 2 * 12)
  have t1 := Int.lt_floor_add_one (jsMod x 2 * 12)
  unfold mathFloor
  refine ⟨⟨?_, ?_⟩, ⟨?_, ?_⟩, ⟨?_, ?_⟩, ?_, ?_⟩
  · exact Int.floor_nonneg.2 (by linarith)
  · rw [Int.floor_lt]; push_cast; linarith
  · exact Int.floor_nonneg.2 (by linarith)
  · rw [Int.floor_lt]; push_cast; linarith
  · exact Int.floor_nonneg.2 (by linarith)
  · rw [Int.floor_lt]; push_cast; linarith
  · rw [hsq]; linarith
  · rw [hsq]; linarith

/-- Latitude axis on `[0, 180)`: the three indices are in range and bracket
`x` within one twenty-fourth of a degree. -/
theorem lat_digits_bracket (x : ℚ) (h0 : 0 ≤ x) (h1 : x < 180) :
    (0 ≤ mathFloor (x / 10) ∧ mathFloor (x / 10) < 18) ∧
    (0 ≤ mathFloor (jsMod x 10) ∧ mathFloor (jsMod x 10) < 10) ∧
    (0 ≤ mathFloor (jsMod x 1 * 24) ∧ mathFloor (jsMod x 1 * 24) < 24) ∧
    ((mathFloor (x / 10) : ℚ) * 10 + (mathFloor (jsMod x 10) : ℚ)
        + (mathFloor (jsMod x 1 * 24) : ℚ) / 24 ≤ x) ∧
    (x < (mathFloor (x / 10) : ℚ) * 10 + (mathFloor (jsMod x 10) : ℚ)
        + (mathFloor (jsMod x 1 * 24) : ℚ) / 24 + 1 / 24) := by
  have a0 := jsMod_nonneg x 10 h0 (by norm_num)
  have a1 := jsMod_lt x 10 h0 (by norm_num)
  have b0 := jsMod_nonneg x 1 h0 (by norm_num)
  have b1 := jsMod_lt x 1 h0 (by norm_num)
  have e10 := jsMod_of_nonneg x 10 h0 (by norm_num)
  have e1 := jsMod_of_nonneg x 1 h0 (by norm_num)
  have hs : (⌊jsMod x 10⌋ : ℤ) = ⌊x / 1⌋ - 10 * ⌊x / 10⌋ := by
    have : jsMod x 10 = x / 1 - ((10 * ⌊x / 10⌋ : ℤ) : ℚ) := by
      rw [e10]; push_cast; ring
    rw [this, Int.floor_sub_int]
  have hsq : ((⌊jsMod x 10⌋ : ℤ) : ℚ) = (⌊x / 1⌋ : ℚ) - 10 * (⌊x / 10⌋ : ℚ) := by
    rw [hs]; push_cast; ring
  have t0 := Int.floor_le (jsMod x 1 * 24)
  have t1 := Int.lt_floor_add_one (jsMod x 1 * 24)
  unfold mathFloor
  refine ⟨⟨?_, ?_⟩, ⟨?_, ?_⟩, ⟨?_, ?_⟩, ?_, ?_⟩
  · exact Int.floor_nonneg.2 (by linarith)
  · rw [Int.floor_lt]; push_cast; linarith
  · exact Int.floor_nonneg.2 (by linarith)
  · rw [Int.floor_lt]; push_cast; linarith
  · exact Int.floor_nonneg.2 (by linarith)
  · rw [Int.floor_lt]; push_cast; linarith
  · rw [hsq]; linarith
  · rw [hsq]; linarith

/-- The locator is assembled from the six indices. -/
theorem latLonToMaidenhead_of_digits (lat lon : ℚ) (F1 F2 S1 S2 T1 T2 : ℤ)
    (hF1 : mathFloor ((lon + 180) / 20) = F1) (hF2 : mathFloor ((lat + 90) / 10) = F2)
    (hS1 : mathFloor (jsMod (lon + 180) 20 / 2) = S1)
    (hS2 : mathFloor (jsMod (lat + 90) 10) = S2)
    (hT1 : mathFloor (jsMod (lon + 180) 2 * 12) = T1)
    (hT2 : mathFloor (jsMod (lat + 90) 1 * 24) = T2) :
    latLonToMaidenhead lat lon =
      [fromCharCode (65 + F1)] ++ [fromCharCode (65 + F2)] ++ numberToString S1 ++
        numberToString S2 ++ [fromCharCode (97 + T1)] ++ [fromCharCode (97 + T2)] := by
  unfold latLonToMaidenhead
  simp only [hF1, hF2, hS1, hS2, hT1, hT2]

/-- With all six indices in range the locator has six code units, one per index. -/
theorem latLonToMaidenhead_in_range (lat lon : ℚ) (F1 F2 S1 S2 T1 T2 : ℤ)
    (hF1 : mathFloor ((lon + 180) / 20) = F1) (hF2 : mathFloor ((lat + 90) / 10) = F2)
    (hS1 : mathFloor (jsMod (lon + 180) 20 / 2) = S1)
    (hS2 : mathFloor (jsMod (lat + 90) 10) = S2)
    (hT1 : mathFloor (jsMod (lon + 180) 2 * 12) = T1)
    (hT2 : mathFloor (jsMod (lat + 90) 1 * 24) = T2)
    (rF1 : 0 ≤ F1 ∧ F1 < 18) (rF2 : 0 ≤ F2 ∧ F2 < 18) (rS1 : 0 ≤ S1 ∧ S1 < 10)
    (rS2 : 0 ≤ S2 ∧ S2 < 10) (rT1 : 0 ≤ T1 ∧ T1 < 24) (rT2 : 0 ≤ T2 ∧ T2 < 24) :
    latLonToMaidenhead lat lon =
      [(65 + F1).toNat, (65 + F2).toNat, (48 + S1).toNat, (48 + S2).toNat,
        (97 + T1).toNat, (97 + T2).toNat] := by
  rw [latLonToMaidenhead_of_digits lat lon F1 F2 S1 S2 T1 T2 hF1 hF2 hS1 hS2 hT1 hT2,
    fromCharCode_of_range (65 + F1) (by omega) (by omega),
    fromCharCode_of_range (65 + F2) (by omega) (by omega),
    fromCharCode_of_range (97 + T1) (by omega) (by omega),
    fromCharCode_of_range (97 + T2) (by omega) (by omega),
    numberToString_digit S1 rS1.1 rS1.2, numberToString_digit S2 rS2.1 rS2.2]
  rfl

/-- Decoding six code units whose third and fourth are digits: the formula of
`maidenheadToLatLon` on the code units, with no range check on the letters. -/
theorem maidenheadToLatLon_six (a b c d e f : Nat) (hc : 48 ≤ c ∧ c ≤ 57)
    (hd : 48 ≤ d ∧ d ≤ 57) :
    maidenheadToLatLon [a, b, c, d, e, f] =
      { lat := some ((((b : ℚ) - 65) * 10) + ((d : ℚ) - 48) + (((f : ℚ) - 97) / 24) - 90),
        lon := some ((((a : ℚ) - 65) * 20) + (((c : ℚ) - 48) * 2) + (((e : ℚ) - 97) / 12)
          - 180) } := by
  simp [maidenheadToLatLon, charCodeAt, charAt, parseInt, hc, hd]

/-- A valid locator is six code units within the positional ranges. -/
theorem isValidLocator_iff (g : JSString) :
    isValidLocator g = true ↔
      ∃ a b c d e f : Nat, g = [a, b, c, d, e, f] ∧ (65 ≤ a ∧ a ≤ 82) ∧ (65 ≤ b ∧ b ≤ 82) ∧
        (48 ≤ c ∧ c ≤ 57) ∧ (48 ≤ d ∧ d ≤ 57) ∧ (97 ≤ e ∧ e ≤ 120) ∧ (97 ≤ f ∧ f ≤ 120) := by
  constructor
  · intro h
    match g, h with
    | [a, b, c, d, e, f], h =>
      simp only [isValidLocator, Bool.and_eq_true, decide_eq_true_eq] at h
      exact ⟨a, b, c, d, e, f, rfl, h.1.1.1.1.1, h.1.1.1.1.2, h.1.1.1.2, h.1.1.2, h.1.2, h.2⟩
  · rintro ⟨a, b, c, d, e, f, rfl, ha, hb, hc, hd, he, hf⟩
    simp only [isValidLocator, Bool.and_eq_true, decide_eq_true_eq]
    exact ⟨⟨⟨⟨⟨ha, hb⟩, hc⟩, hd⟩, he⟩, hf⟩

theorem toNat_cast_rat (n : ℤ) (h : 0 ≤ n) : ((n.toNat : ℕ) : ℚ) = (n : ℚ) := by
  have h1 : ((n.toNat : ℕ) : ℤ) = n := Int.toNat_of_nonneg h
  exact_mod_cast congrArg (Int.cast : ℤ → ℚ) h1

/-- On the half-open ranges `[-90, 90)` and `[-180, 180)` the locator is well formed. -/
theorem latLonToMaidenhead_valid_half_open (lat lon : ℚ) (hlat0 : -90 ≤ lat) (hlat1 : lat < 90)
    (hlon0 : -180 ≤ lon) (hlon1 : lon < 180) :
    isValidLocator (latLonToMaidenhead lat lon) = true := by
  obtain ⟨f1, s1, t1, -, -⟩ := lon_digits_bracket (lon + 180) (by linarith) (by linarith)
  obtain ⟨f2, s2, t2, -, -⟩ := lat_digits_bracket (lat + 90) (by linarith) (by linarith)
  rw [latLonToMaidenhead_in_range lat lon _ _ _ _ _ _ rfl rfl rfl rfl rfl rfl f1 f2 s1 s2 t1 t2,
    isValidLocator_iff]
  exact ⟨_, _, _, _, _, _, rfl, by omega, by omega, by omega, by omega, by omega, by omega⟩

/-- The locator of New York City Hall, code unit by code unit. -/
theorem latLonToMaidenhead_nyc :
    latLonToMaidenhead 40.7128 (-74.0060) = [70, 78, 50, 48, 120, 114] := by
  obtain ⟨x1, x2, x3⟩ := lon_digits_exact 5 2 23 (by decide) (by decide) (by decide)
    (by decide) (by decide) ((-74.0060 : ℚ) + 180) (by norm_num) (by norm_num)
  obtain ⟨y1, y2, y3⟩ := lat_digits_exact 13 0 17 (by decide) (by decide) (by decide)
    (by decide) (by decide) ((40.7128 : ℚ) + 90) (by norm_num) (by norm_num)
  rw [latLonToMaidenhead_of_digits _ _ _ _ _ _ _ _ x1 y1 x2 y2 x3 y3]
  rfl

/-- The locator computed at longitude exactly 180, on the equator. -/
theorem latLonToMaidenhead_lon_180 : latLonToMaidenhead 0 180 = [83, 74, 48, 48, 97, 97] := by
  obtain ⟨x1, x2, x3⟩ := lon_digits_exact 18 0 0 (by decide) (by decide) (by decide)
    (by decide) (by decide) ((180 : ℚ) + 180) (by norm_num) (by norm_num)
  obtain ⟨y1, y2, y3⟩ := lat_digits_exact 9 0 0 (by decide) (by decide) (by decide)
    (by decide) (by decide) ((0 : ℚ) + 90) (by norm_num) (by norm_num)
  rw [latLonToMaidenhead_of_digits _ _ _ _ _ _ _ _ x1 y1 x2 y2 x3 y3]
  rfl

/-- The locator computed at latitude exactly 90, on the prime meridian. -/
theorem latLonToMaidenhead_lat_90 : latLonToMaidenhead 90 0 = [74, 83, 48, 48, 97, 97] := by
  obtain ⟨x1, x2, x3⟩ := lon_digits_exact 9 0 0 (by decide) (by decide) (by decide)
    (by decide) (by decide) ((0 : ℚ) + 180) (by norm_num) (by norm_num)
  obtain ⟨y1, y2, y3⟩ := lat_digits_exact 18 0 0 (by decide) (by decide) (by decide)
    (by decide) (by decide) ((90 : ℚ) + 90) (by norm_num) (by norm_num)
  rw [latLonToMaidenhead_of_digits _ _ _ _ _ _ _ _ x1 y1 x2 y2 x3 y3]
  rfl

/-! ## Grid locator in exact arithmetic, malformed input, boundary, fixture -/

/-- Round trip with the arithmetic read exactly over the rationals: for every
valid 6-character locator `g`, `maidenheadToLatLon g` is a pair of finite
numbers and `latLonToMaidenhead` applied to it returns `g`.  The code rounds
every operation to double precision, where it fails for
more than half of the valid locators. -/
theorem grid_round_trip_exact (g : JSString) (hg : isValidLocator g = true) :
    ∃ lat lon : ℚ, maidenheadToLatLon g = { lat := some lat, lon := some lon } ∧
      latLonToMaidenhead lat lon = g := by
  obtain ⟨a, b, c, d, e, f, rfl, ha, hb, hc, hd, he, hf⟩ := (isValidLocator_iff g).1 hg
  refine ⟨_, _, maidenheadToLatLon_six a b c d e f hc hd, ?_⟩
  obtain ⟨x1, x2, x3⟩ := lon_digits_exact ((a : ℤ) - 65) ((c : ℤ) - 48) ((e : ℤ) - 97)
    (by omega) (by omega) (by omega) (by omega) (by omega)
    (((((a : ℚ) - 65) * 20) + (((c : ℚ) - 48) * 2) + (((e : ℚ) - 97) / 12) - 180) + 180)
    (by push_cast; linarith) (by push_cast; linarith)
  obtain ⟨y1, y2, y3⟩ := lat_digits_exact ((b : ℤ) - 65) ((d : ℤ) - 48) ((f : ℤ) - 97)
    (by omega) (by omega) (by omega) (by omega) (by omega)
    (((((b : ℚ) - 65) * 10) + ((d : ℚ) - 48) + (((f : ℚ) - 97) / 24) - 90) + 90)
    (by push_cast; linarith) (by push_cast; linarith)
  rw [latLonToMaidenhead_in_range _ _ _ _ _ _ _ _ x1 y1 x2 y2 x3 y3
    (by omega) (by omega) (by omega) (by omega) (by omega) (by omega)]
  have e1 : (65 + ((a : ℤ) - 65)).toNat = a := by omega
  have e2 : (65 + ((b : ℤ) - 65)).toNat = b := by omega
  have e3 : (48 + ((c : ℤ) - 48)).toNat = c := by omega
  have e4 : (48 + ((d : ℤ) - 48)).toNat = d := by omega
  have e5 : (97 + ((e : ℤ) - 97)).toNat = e := by omega
  have e6 : (97 + ((f : ℤ) - 97)).toNat = f := by omega
  rw [e1, e2, e3, e4, e5, e6]

/-- C2 (counterexample). `maidenheadToLatLon` does not fail on the three
malformed inputs of the claim: for `"FN3"` (too short), `"ZZ99zz"` (letters
outside A-R and a-x) and `"fn30as"` (lower-case field letters), none of which
is a valid locator, it returns a coordinate pair. -/
theorem maidenheadToLatLon_returns_on_malformed :
    (isValidLocator (jsStr "FN3") = false ∧
      maidenheadToLatLon (jsStr "FN3") = { lat := some 0, lon := some 0 }) ∧
    (isValidLocator (jsStr "ZZ99zz") = false ∧
      maidenheadToLatLon (jsStr "ZZ99zz") =
        { lat := some (4081 / 24), lon := some (4081 / 12) }) ∧
    (isValidLocator (jsStr "fn30as") = false ∧
      maidenheadToLatLon (jsStr "fn30as") = { lat := some (1443 / 4), lon := some 566 }) := by
  refine ⟨⟨by decide, by decide⟩, ⟨by decide, ?_⟩, ⟨by decide, ?_⟩⟩
  · have h : jsStr "ZZ99zz" = [90, 90, 57, 57, 122, 122] := by decide
    rw [h, maidenheadToLatLon_six 90 90 57 57 122 122 (by decide) (by decide)]
    norm_num
  · have h : jsStr "fn30as" = [102, 110, 51, 48, 97, 115] := by decide
    rw [h, maidenheadToLatLon_six 102 110 51 48 97 115 (by decide) (by decide)]
    norm_num

/-- C2 (amended). `maidenheadToLatLon` is total and never signals an error: a
string shorter than six code units gives the pair `(0, 0)`; otherwise the
result is computed from the first six code units alone, with no range check on
the four letters and any further code units ignored, each coordinate being
`NaN` exactly when its digit position (the third for the longitude, the fourth
for the latitude) does not hold a decimal digit. -/
theorem maidenheadToLatLon_total (g : JSString) :
    maidenheadToLatLon g =
      match g with
      | a :: b :: c :: d :: e :: f :: _ =>
          { lat := if 48 ≤ d ∧ d ≤ 57 then
                some ((((b : ℚ) - 65) * 10) + ((d : ℚ) - 48) + (((f : ℚ) - 97) / 24) - 90)
              else none,
            lon := if 48 ≤ c ∧ c ≤ 57 then
                some ((((a : ℚ) - 65) * 20) + (((c : ℚ) - 48) * 2) + (((e : ℚ) - 97) / 12) - 180)
              else none }
      | _ => { lat := some 0, lon := some 0 } := by
  match g with
  | [] => rfl
  | [_] => rfl
  | [_, _] => rfl
  | [_, _, _] => rfl
  | [_, _, _, _] => rfl
  | [_, _, _, _, _] => rfl
  | a :: b :: c :: d :: e :: f :: rest =>
    by_cases hc : 48 ≤ c ∧ c ≤ 57 <;> by_cases hd : 48 ≤ d ∧ d ≤ 57 <;>
      simp [maidenheadToLatLon, charCodeAt, charAt, parseInt, hc, hd]

/-- C3 (the code at the failing inputs). At longitude exactly 180 the computed
locator is `SJ00aa`, and at latitude exactly 90 it is `JS00aa`: the field
letter `S` lies outside A-R, so neither result is a well-formed locator. -/
theorem latLonToMaidenhead_boundary_out_of_range :
    (latLonToMaidenhead 0 180 = jsStr "SJ00aa" ∧
      isValidLocator (latLonToMaidenhead 0 180) = false) ∧
    (latLonToMaidenhead 90 0 = jsStr "JS00aa" ∧
      isValidLocator (latLonToMaidenhead 90 0) = false) := by
  rw [latLonToMaidenhead_lon_180, latLonToMaidenhead_lat_90]
  decide

/-- C4 (counterexample). The locator computed for `(40.7128, -74.0060)` is not
`FN30as`. -/
theorem latLonToMaidenhead_nyc_ne_FN30as :
    latLonToMaidenhead 40.7128 (-74.0060) ≠ jsStr "FN30as" := by
  rw [latLonToMaidenhead_nyc]
  decide

/-- C4 (amended). The locator computed for `(40.7128, -74.0060)` is exactly
`FN20xr`: the longitude -74.0060 lies just west of the -74 square boundary. -/
theorem latLonToMaidenhead_nyc_eq_FN20xr :
    latLonToMaidenhead 40.7128 (-74.0060) = jsStr "FN20xr" := by
  rw [latLonToMaidenhead_nyc]
  decide

/-- Lossy inverse with the arithmetic read exactly over the rationals: for
latitude in `[-90, 90)` and longitude in `[-180, 180)`, decoding the locator of
the point gives finite `d` with `d.lon ≤ lon < d.lon + 1/12` and
`d.lat ≤ lat < d.lat + 1/24`.  The code rounds every operation to double
precision, where this fails next to a subsquare boundary. -/
theorem decode_encode_lower_left_exact (lat lon : ℚ) (hlat0 : -90 ≤ lat) (hlat1 : lat < 90)
    (hlon0 : -180 ≤ lon) (hlon1 : lon < 180) :
    ∃ dlat dlon : ℚ,
      maidenheadToLatLon (latLonToMaidenhead lat lon) = { lat := some dlat, lon := some dlon } ∧
      (dlon ≤ lon ∧ lon < dlon + 1 / 12) ∧ (dlat ≤ lat ∧ lat < dlat + 1 / 24) := by
  obtain ⟨f1, s1, t1, lo1, hi1⟩ := lon_digits_bracket (lon + 180) (by linarith) (by linarith)
  obtain ⟨f2, s2, t2, lo2, hi2⟩ := lat_digits_bracket (lat + 90) (by linarith) (by linarith)
  rw [latLonToMaidenhead_in_range lat lon _ _ _ _ _ _ rfl rfl rfl rfl rfl rfl f1 f2 s1 s2 t1 t2]
  refine ⟨_, _, maidenheadToLatLon_six _ _ _ _ _ _ (by omega) (by omega), ?_, ?_⟩
  · rw [toNat_cast_rat _ (by omega), toNat_cast_rat _ (by omega), toNat_cast_rat _ (by omega)]
    push_cast
    constructor <;> linarith
  · rw [toNat_cast_rat _ (by omega), toNat_cast_rat _ (by omega), toNat_cast_rat _ (by omega)]
    push_cast
    constructor <;> linarith

/-! ## Lemmas on the grid arithmetic in double precision -/

theorem f64Add_intCast (m n : ℤ) (h : |m + n| < 2 ^ 53) : f64Add (m : ℚ) (n : ℚ) = ((m + n : ℤ) : ℚ) := by
  unfold f64Add
  rw [← Int.cast_add]
  exact f64Round_intCast _ h

theorem f64Sub_intCast (m n : ℤ) (h : |m - n| < 2 ^ 53) : f64Sub (m : ℚ) (n : ℚ) = ((m - n : ℤ) : ℚ) := by
  unfold f64Sub
  rw [← Int.cast_sub]
  exact f64Round_intCast _ h

theorem f64Mul_intCast (m n : ℤ) (h : |m * n| < 2 ^ 53) : f64Mul (m : ℚ) (n : ℚ) = ((m * n : ℤ) : ℚ) := by
  unfold f64Mul
  rw [← Int.cast_mul]
  exact f64Round_intCast _ h

/-- Longitude axis, first two indices: for `x` strictly inside the square
`[20 F + 2 S, 20 F + 2 S + 2]`, the field and square indices computed in double
precision are `F` and `S`, and `x % 2` is the offset within the square. -/
theorem lon_field_square_f64 (F S : ℤ) (hF0 : 0 ≤ F) (hF : F < 18) (hS0 : 0 ≤ S) (hS : S < 10)
    (x : ℚ) (hlo : 20 * (F : ℚ) + 2 * S + 1 / 10 ^ 13 ≤ x)
    (hhi : x ≤ 20 * (F : ℚ) + 2 * S + 2 - 1 / 10 ^ 13) :
    mathFloor (f64Div x 20) = F ∧ mathFloor (f64Div (jsMod x 20) 2) = S ∧
      jsMod x 2 = x - (20 * (F : ℚ) + 2 * S) := by
  have hF0' : (0 : ℚ) ≤ F := by exact_mod_cast hF0
  have hF' : (F : ℚ) ≤ 17 := by exact_mod_cast (by omega : F ≤ 17)
  have hS0' : (0 : ℚ) ≤ S := by exact_mod_cast hS0
  have hS' : (S : ℚ) ≤ 9 := by exact_mod_cast (by omega : S ≤ 9)
  have hm20 : jsMod x 20 = x - 20 * F :=
    jsMod_of_decomp x 20 (x - 20 * F) F (by norm_num) hF0 (by linarith) (by linarith)
      (by ring)
  have hm2 : jsMod x 2 = x - 20 * F - 2 * S :=
    jsMod_of_decomp x 2 (x - 20 * F - 2 * S) (10 * F + S) (by norm_num) (by omega)
      (by linarith) (by linarith) (by push_cast; ring)
  have b1 := f64Round_bounds (x / 20) 18 (by rw [abs_le]; constructor <;> linarith)
  have b2 := f64Round_bounds ((x - 20 * F) / 2) 10 (by rw [abs_le]; constructor <;> linarith)
  norm_num at b1 b2
  refine ⟨?_, ?_, by rw [hm2]; ring⟩
  · unfold mathFloor f64Div
    rw [Int.floor_eq_iff]
    constructor <;> linarith [b1.1, b1.2]
  · unfold mathFloor f64Div
    rw [Int.floor_eq_iff, hm20]
    constructor <;> linarith [b2.1, b2.2]

/-- Longitude axis, first two indices at the corner of a square. -/
theorem lon_field_square_corner_f64 (F S : ℤ) (hF0 : 0 ≤ F) (hF : F < 18) (hS0 : 0 ≤ S)
    (hS : S < 10) :
    mathFloor (f64Div (20 * (F : ℚ) + 2 * S) 20) = F ∧
      mathFloor (f64Div (jsMod (20 * (F : ℚ) + 2 * S) 20) 2) = S ∧
      jsMod (20 * (F : ℚ) + 2 * S) 2 = 0 := by
  have hF0' : (0 : ℚ) ≤ F := by exact_mod_cast hF0
  have hF' : (F : ℚ) ≤ 17 := by exact_mod_cast (by omega : F ≤ 17)
  have hS0' : (0 : ℚ) ≤ S := by exact_mod_cast hS0
  have hS' : (S : ℚ) ≤ 9 := by exact_mod_cast (by omega : S ≤ 9)
  have hm20 : jsMod (20 * (F : ℚ) + 2 * S) 20 = 2 * S :=
    jsMod_of_decomp (20 * (F : ℚ) + 2 * S) 20 (2 * (S : ℚ)) F (by norm_num) hF0 (by linarith)
      (by linarith) (by ring)
  have hm2 : jsMod (20 * (F : ℚ) + 2 * S) 2 = 0 :=
    jsMod_of_decomp (20 * (F : ℚ) + 2 * S) 2 0 (10 * F + S) (by norm_num) (by omega) le_rfl
      (by norm_num)
      (by push_cast; ring)
  refine ⟨?_, ?_, hm2⟩
  · rcases hS0.eq_or_lt with h | h
    · subst h
      have e : (20 * (F : ℚ) + 2 * ((0 : ℤ) : ℚ)) / 20 = ((F : ℤ) : ℚ) := by push_cast; ring
      unfold mathFloor f64Div
      rw [e, f64Round_intCast F (by rw [abs_lt]; constructor <;> omega), Int.floor_intCast]
    · have hS1 : (1 : ℚ) ≤ S := by exact_mod_cast h
      have b1 := f64Round_bounds ((20 * (F : ℚ) + 2 * S) / 20) 18
        (by rw [abs_le]; constructor <;> linarith)
      norm_num at b1
      unfold mathFloor f64Div
      rw [Int.floor_eq_iff]
      constructor <;> linarith [b1.1, b1.2]
  · have e : (2 * (S : ℚ)) / 2 = ((S : ℤ) : ℚ) := by ring
    unfold mathFloor f64Div
    rw [hm20, e, f64Round_intCast S (by rw [abs_lt]; constructor <;> omega), Int.floor_intCast]

/-- A subsquare index: when the exact product `r * c` lies strictly inside
`[T, T + 1]`, the floor of the rounded product is `T`. -/
theorem floor_mul_of_inside (r c : ℚ) (T : ℤ) (hT0 : 0 ≤ T) (hT : T < 24)
    (hlo : (T : ℚ) + 1 / 10 ^ 14 ≤ r * c) (hhi : r * c ≤ T + 1 - 1 / 10 ^ 14) :
    mathFloor (f64Mul r c) = T := by
  have hT0' : (0 : ℚ) ≤ T := by exact_mod_cast hT0
  have hT' : (T : ℚ) ≤ 23 := by exact_mod_cast (by omega : T ≤ 23)
  have b := f64Round_bounds (r * c) 24 (by rw [abs_le]; constructor <;> linarith)
  norm_num at b
  unfold mathFloor f64Mul
  rw [Int.floor_eq_iff]
  constructor <;> linarith [b.1, b.2]

/-- A subsquare index: when the exact product `r * c` is within `10⁻¹¹` of
`T ≥ 1`, the floor of the rounded product is `T` or `T - 1`. -/
theorem floor_mul_of_near (r c : ℚ) (T : ℤ) (hT0 : 1 ≤ T) (hT : T < 24)
    (hlo : (T : ℚ) - 1 / 10 ^ 11 ≤ r * c) (hhi : r * c ≤ T + 1 / 10 ^ 11) :
    mathFloor (f64Mul r c) = T ∨ mathFloor (f64Mul r c) = T - 1 := by
  have hT0' : (1 : ℚ) ≤ T := by exact_mod_cast hT0
  have hT' : (T : ℚ) ≤ 23 := by exact_mod_cast (by omega : T ≤ 23)
  have b := f64Round_bounds (r * c) 24 (by rw [abs_le]; constructor <;> linarith)
  norm_num at b
  unfold mathFloor f64Mul
  rcases le_or_lt (T : ℚ) (f64Round (r * c)) with h | h
  · left
    rw [Int.floor_eq_iff]
    constructor <;> linarith [b.1, b.2]
  · right
    rw [Int.floor_eq_iff]
    push_cast
    constructor <;> linarith [b.1, b.2]

/-- Latitude axis, first two indices: for `y` strictly inside the square
`[10 F + S, 10 F + S + 1]`, the field and square indices computed in double
precision are `F` and `S`, and `y % 1` is the offset within the square. -/
theorem lat_field_square_f64 (F S : ℤ) (hF0 : 0 ≤ F) (hF : F < 18) (hS0 : 0 ≤ S) (hS : S < 10)
    (y : ℚ) (hlo : 10 * (F : ℚ) + S + 1 / 10 ^ 13 ≤ y)
    (hhi : y ≤ 10 * (F : ℚ) + S + 1 - 1 / 10 ^ 13) :
    mathFloor (f64Div y 10) = F ∧ mathFloor (jsMod y 10) = S ∧
      jsMod y 1 = y - (10 * (F : ℚ) + S) := by
  have hF0' : (0 : ℚ) ≤ F := by exact_mod_cast hF0
  have hF' : (F : ℚ) ≤ 17 := by exact_mod_cast (by omega : F ≤ 17)
  have hS0' : (0 : ℚ) ≤ S := by exact_mod_cast hS0
  have hS' : (S : ℚ) ≤ 9 := by exact_mod_cast (by omega : S ≤ 9)
  have hm10 : jsMod y 10 = y - 10 * F :=
    jsMod_of_decomp y 10 (y - 10 * F) F (by norm_num) hF0 (by linarith) (by linarith)
      (by ring)
  have hm1 : jsMod y 1 = y - 10 * F - S :=
    jsMod_of_decomp y 1 (y - 10 * F - S) (10 * F + S) (by norm_num) (by omega)
      (by linarith) (by linarith) (by push_cast; ring)
  have b1 := f64Round_bounds (y / 10) 18 (by rw [abs_le]; constructor <;> linarith)
  norm_num at b1
  refine ⟨?_, ?_, by rw [hm1]; ring⟩
  · unfold mathFloor f64Div
    rw [Int.floor_eq_iff]
    constructor <;> linarith [b1.1, b1.2]
  · unfold mathFloor
    rw [Int.floor_eq_iff, hm10]
    constructor <;> linarith

/-- Latitude axis, first two indices at the corner of a square. -/
theorem lat_field_square_corner_f64 (F S : ℤ) (hF0 : 0 ≤ F) (hF : F < 18) (hS0 : 0 ≤ S)
    (hS : S < 10) :
    mathFloor (f64Div (10 * (F : ℚ) + S) 10) = F ∧
      mathFloor (jsMod (10 * (F : ℚ) + S) 10) = S ∧
      jsMod (10 * (F : ℚ) + S) 1 = 0 := by
  have hF0' : (0 : ℚ) ≤ F := by exact_mod_cast hF0
  have hF' : (F : ℚ) ≤ 17 := by exact_mod_cast (by omega : F ≤ 17)
  have hS0' : (0 : ℚ) ≤ S := by exact_mod_cast hS0
  have hS' : (S : ℚ) ≤ 9 := by exact_mod_cast (by omega : S ≤ 9)
  have hm10 : jsMod (10 * (F : ℚ) + S) 10 = S :=
    jsMod_of_decomp (10 * (F : ℚ) + S) 10 (S : ℚ) F (by norm_num) hF0 (by linarith)
      (by linarith) (by ring)
  have hm1 : jsMod (10 * (F : ℚ) + S) 1 = 0 :=
    jsMod_of_decomp (10 * (F : ℚ) + S) 1 0 (10 * F + S) (by norm_num) (by omega) le_rfl
      (by norm_num) (by push_cast; ring)
  refine ⟨?_, ?_, hm1⟩
  · rcases hS0.eq_or_lt with h | h
    · subst h
      have e : (10 * (F : ℚ) + ((0 : ℤ) : ℚ)) / 10 = ((F : ℤ) : ℚ) := by push_cast; ring
      unfold mathFloor f64Div
      rw [e, f64Round_intCast F (by rw [abs_lt]; constructor <;> omega), Int.floor_intCast]
    · have hS1 : (1 : ℚ) ≤ S := by exact_mod_cast h
      have b1 := f64Round_bounds ((10 * (F : ℚ) + S) / 10) 18
        (by rw [abs_le]; constructor <;> linarith)
      norm_num at b1
      unfold mathFloor f64Div
      rw [Int.floor_eq_iff]
      constructor <;> linarith [b1.1, b1.2]
  · unfold mathFloor
    rw [hm10, Int.floor_intCast]

/-- The longitude reconstructed in double precision from three indices is
within `7·10⁻¹⁴` of the exact corner, and equal to it when the subsquare index
is zero. -/
theorem lon_decode_error_f64 (F S T : ℤ) (hF0 : 0 ≤ F) (hF : F < 18) (hS0 : 0 ≤ S) (hS : S < 10)
    (hT0 : 0 ≤ T) (hT : T < 24) :
    |f64Sub (f64Add (f64Add (f64Mul (F : ℚ) 20) (f64Mul (S : ℚ) 2)) (f64Div (T : ℚ) 12)) 180
        - (20 * (F : ℚ) + 2 * S + T / 12 - 180)| ≤ 7 / 10 ^ 14 ∧
    (T = 0 → f64Sub (f64Add (f64Add (f64Mul (F : ℚ) 20) (f64Mul (S : ℚ) 2)) (f64Div (T : ℚ) 12)) 180
        = 20 * (F : ℚ) + 2 * S - 180) := by
  have hF0' : (0 : ℚ) ≤ F := by exact_mod_cast hF0
  have hF' : (F : ℚ) ≤ 17 := by exact_mod_cast (by omega : F ≤ 17)
  have hS0' : (0 : ℚ) ≤ S := by exact_mod_cast hS0
  have hS' : (S : ℚ) ≤ 9 := by exact_mod_cast (by omega : S ≤ 9)
  have hT0' : (0 : ℚ) ≤ T := by exact_mod_cast hT0
  have hT' : (T : ℚ) ≤ 23 := by exact_mod_cast (by omega : T ≤ 23)
  have e1 : f64Mul (F : ℚ) 20 = ((F * 20 : ℤ) : ℚ) := by
    have := f64Mul_intCast F 20 (by rw [abs_lt]; constructor <;> omega)
    simpa using this
  have e2 : f64Mul (S : ℚ) 2 = ((S * 2 : ℤ) : ℚ) := by
    have := f64Mul_intCast S 2 (by rw [abs_lt]; constructor <;> omega)
    simpa using this
  have e3 : f64Add ((F * 20 : ℤ) : ℚ) ((S * 2 : ℤ) : ℚ) = ((F * 20 + S * 2 : ℤ) : ℚ) :=
    f64Add_intCast _ _ (by rw [abs_lt]; constructor <;> omega)
  rw [e1, e2, e3]
  constructor
  · have b1 := f64Round_bounds ((T : ℚ) / 12) 2 (by rw [abs_le]; constructor <;> linarith)
    have b2 := f64Round_bounds (((F * 20 + S * 2 : ℤ) : ℚ) + f64Round ((T : ℚ) / 12)) 362
      (by rw [abs_le]; push_cast; constructor <;> linarith [b1.1, b1.2])
    have b3 := f64Round_bounds
      (f64Round (((F * 20 + S * 2 : ℤ) : ℚ) + f64Round ((T : ℚ) / 12)) - 180) 181
      (by rw [abs_le]; push_cast at b2 ⊢; constructor <;> linarith [b1.1, b1.2, b2.1, b2.2])
    unfold f64Sub f64Add f64Div
    push_cast at b2 b3 ⊢
    norm_num at b1 b2 b3
    rw [abs_le]
    constructor <;> linarith [b1.1, b1.2, b2.1, b2.2, b3.1, b3.2]
  · intro h0
    subst h0
    have e4 : f64Div ((0 : ℤ) : ℚ) 12 = ((0 : ℤ) : ℚ) := by
      unfold f64Div; simp [f64Round_zero]
    rw [e4, f64Add_intCast _ _ (by rw [abs_lt]; constructor <;> omega)]
    have e5 := f64Sub_intCast (F * 20 + S * 2 + 0) 180 (by rw [abs_lt]; constructor <;> omega)
    push_cast at e5 ⊢
    rw [e5]
    ring

/-- The latitude reconstructed in double precision from three indices is
within `4·10⁻¹⁴` of the exact corner, and equal to it when the subsquare index
is zero. -/
theorem lat_decode_error_f64 (F S T : ℤ) (hF0 : 0 ≤ F) (hF : F < 18) (hS0 : 0 ≤ S) (hS : S < 10)
    (hT0 : 0 ≤ T) (hT : T < 24) :
    |f64Sub (f64Add (f64Add (f64Mul (F : ℚ) 10) (S : ℚ)) (f64Div (T : ℚ) 24)) 90
        - (10 * (F : ℚ) + S + T / 24 - 90)| ≤ 4 / 10 ^ 14 ∧
    (T = 0 → f64Sub (f64Add (f64Add (f64Mul (F : ℚ) 10) (S : ℚ)) (f64Div (T : ℚ) 24)) 90
        = 10 * (F : ℚ) + S - 90) := by
  have hF0' : (0 : ℚ) ≤ F := by exact_mod_cast hF0
  have hF' : (F : ℚ) ≤ 17 := by exact_mod_cast (by omega : F ≤ 17)
  have hS0' : (0 : ℚ) ≤ S := by exact_mod_cast hS0
  have hS' : (S : ℚ) ≤ 9 := by exact_mod_cast (by omega : S ≤ 9)
  have hT0' : (0 : ℚ) ≤ T := by exact_mod_cast hT0
  have hT' : (T : ℚ) ≤ 23 := by exact_mod_cast (by omega : T ≤ 23)
  have e1 : f64Mul (F : ℚ) 10 = ((F * 10 : ℤ) : ℚ) := by
    have := f64Mul_intCast F 10 (by rw [abs_lt]; constructor <;> omega)
    simpa using this
  have e3 : f64Add ((F * 10 : ℤ) : ℚ) (S : ℚ) = ((F * 10 + S : ℤ) : ℚ) :=
    f64Add_intCast _ _ (by rw [abs_lt]; constructor <;> omega)
  rw [e1, e3]
  constructor
  · have b1 := f64Round_bounds ((T : ℚ) / 24) 1 (by rw [abs_le]; constructor <;> linarith)
    have b2 := f64Round_bounds (((F * 10 + S : ℤ) : ℚ) + f64Round ((T : ℚ) / 24)) 181
      (by rw [abs_le]; push_cast; constructor <;> linarith [b1.1, b1.2])
    have b3 := f64Round_bounds
      (f64Round (((F * 10 + S : ℤ) : ℚ) + f64Round ((T : ℚ) / 24)) - 90) 91
      (by rw [abs_le]; push_cast at b2 ⊢; constructor <;> linarith [b1.1, b1.2, b2.1, b2.2])
    unfold f64Sub f64Add f64Div
    push_cast at b2 b3 ⊢
    norm_num at b1 b2 b3
    rw [abs_le]
    constructor <;> linarith [b1.1, b1.2, b2.1, b2.2, b3.1, b3.2]
  · intro h0
    subst h0
    have e4 : f64Div ((0 : ℤ) : ℚ) 24 = ((0 : ℤ) : ℚ) := by
      unfold f64Div; simp [f64Round_zero]
    rw [e4, f64Add_intCast _ _ (by rw [abs_lt]; constructor <;> omega)]
    have e5 := f64Sub_intCast (F * 10 + S + 0) 90 (by rw [abs_lt]; constructor <;> omega)
    push_cast at e5 ⊢
    rw [e5]
    ring

/-- The locator is assembled from the six indices computed in double precision. -/
theorem latLonToMaidenheadF64_of_digits (lat lon : ℚ) (F1 F2 S1 S2 T1 T2 : ℤ)
    (hF1 : mathFloor (f64Div (f64Add lon 180) 20) = F1)
    (hF2 : mathFloor (f64Div (f64Add lat 90) 10) = F2)
    (hS1 : mathFloor (f64Div (jsMod (f64Add lon 180) 20) 2) = S1)
    (hS2 : mathFloor (jsMod (f64Add lat 90) 10) = S2)
    (hT1 : mathFloor (f64Mul (jsMod (f64Add lon 180) 2) 12) = T1)
    (hT2 : mathFloor (f64Mul (jsMod (f64Add lat 90) 1) 24) = T2) :
    latLonToMaidenheadF64 lat lon =
      [fromCharCode (65 + F1)] ++ [fromCharCode (65 + F2)] ++ numberToString S1 ++
        numberToString S2 ++ [fromCharCode (97 + T1)] ++ [fromCharCode (97 + T2)] := by
  unfold latLonToMaidenheadF64
  simp only [hF1, hF2, hS1, hS2, hT1, hT2]

/-- With all six indices in range the locator has six code units, one per index. -/
theorem latLonToMaidenheadF64_in_range (lat lon : ℚ) (F1 F2 S1 S2 T1 T2 : ℤ)
    (hF1 : mathFloor (f64Div (f64Add lon 180) 20) = F1)
    (hF2 : mathFloor (f64Div (f64Add lat 90) 10) = F2)
    (hS1 : mathFloor (f64Div (jsMod (f64Add lon 180) 20) 2) = S1)
    (hS2 : mathFloor (jsMod (f64Add lat 90) 10) = S2)
    (hT1 : mathFloor (f64Mul (jsMod (f64Add lon 180) 2) 12) = T1)
    (hT2 : mathFloor (f64Mul (jsMod (f64Add lat 90) 1) 24) = T2)
    (rF1 : 0 ≤ F1 ∧ F1 < 18) (rF2 : 0 ≤ F2 ∧ F2 < 18) (rS1 : 0 ≤ S1 ∧ S1 < 10)
    (rS2 : 0 ≤ S2 ∧ S2 < 10) (rT1 : 0 ≤ T1 ∧ T1 < 24) (rT2 : 0 ≤ T2 ∧ T2 < 24) :
    latLonToMaidenheadF64 lat lon =
      [(65 + F1).toNat, (65 + F2).toNat, (48 + S1).toNat, (48 + S2).toNat,
        (97 + T1).toNat, (97 + T2).toNat] := by
  rw [latLonToMaidenheadF64_of_digits lat lon F1 F2 S1 S2 T1 T2 hF1 hF2 hS1 hS2 hT1 hT2,
    fromCharCode_of_range (65 + F1) (by omega) (by omega),
    fromCharCode_of_range (65 + F2) (by omega) (by omega),
    fromCharCode_of_range (97 + T1) (by omega) (by omega),
    fromCharCode_of_range (97 + T2) (by omega) (by omega),
    numberToString_digit S1 rS1.1 rS1.2, numberToString_digit S2 rS2.1 rS2.2]
  rfl

/-- Decoding, in double precision, six code units that form a valid locator:
the two coordinates in terms of the six indices. -/
theorem maidenheadToLatLonF64_valid (a b c d e f : Nat) (ha : 65 ≤ a ∧ a ≤ 82)
    (hb : 65 ≤ b ∧ b ≤ 82) (hc : 48 ≤ c ∧ c ≤ 57) (hd : 48 ≤ d ∧ d ≤ 57)
    (he : 97 ≤ e ∧ e ≤ 120) (hf : 97 ≤ f ∧ f ≤ 120) :
    maidenheadToLatLonF64 [a, b, c, d, e, f] =
      { lat := some (f64Sub (f64Add (f64Add (f64Mul (((b : ℤ) - 65 : ℤ) : ℚ) 10) (((d : ℤ) - 48 : ℤ) : ℚ))
          (f64Div (((f : ℤ) - 97 : ℤ) : ℚ) 24)) 90),
        lon := some (f64Sub (f64Add (f64Add (f64Mul (((a : ℤ) - 65 : ℤ) : ℚ) 20)
          (f64Mul (((c : ℤ) - 48 : ℤ) : ℚ) 2)) (f64Div (((e : ℤ) - 97 : ℤ) : ℚ) 12)) 180) } := by
  have ea := f64Sub_intCast (a : ℤ) 65 (by rw [abs_lt]; constructor <;> omega)
  have eb := f64Sub_intCast (b : ℤ) 65 (by rw [abs_lt]; constructor <;> omega)
  have ee := f64Sub_intCast (e : ℤ) 97 (by rw [abs_lt]; constructor <;> omega)
  have ef := f64Sub_intCast (f : ℤ) 97 (by rw [abs_lt]; constructor <;> omega)
  simp only [Int.cast_natCast, Int.cast_ofNat] at ea eb ee ef
  simp [maidenheadToLatLonF64, charCodeAt, charAt, parseInt, hc, hd, ea, eb, ee, ef]

/-- Longitude axis of the round trip in double precision: decoding the indices
`F`, `S`, `T` and encoding the result gives back `F` and `S`, and a subsquare
index equal to `T` or to `T - 1`. -/
theorem lon_round_trip_f64 (F S T : ℤ) (hF0 : 0 ≤ F) (hF : F < 18) (hS0 : 0 ≤ S) (hS : S < 10)
    (hT0 : 0 ≤ T) (hT : T < 24) (lon : ℚ)
    (hlon : lon = f64Sub (f64Add (f64Add (f64Mul (F : ℚ) 20) (f64Mul (S : ℚ) 2)) (f64Div (T : ℚ) 12)) 180) :
    mathFloor (f64Div (f64Add lon 180) 20) = F ∧
    mathFloor (f64Div (jsMod (f64Add lon 180) 20) 2) = S ∧
    (mathFloor (f64Mul (jsMod (f64Add lon 180) 2) 12) = T ∨
      (1 ≤ T ∧ mathFloor (f64Mul (jsMod (f64Add lon 180) 2) 12) = T - 1)) := by
  have hF0' : (0 : ℚ) ≤ F := by exact_mod_cast hF0
  have hF' : (F : ℚ) ≤ 17 := by exact_mod_cast (by omega : F ≤ 17)
  have hS0' : (0 : ℚ) ≤ S := by exact_mod_cast hS0
  have hS' : (S : ℚ) ≤ 9 := by exact_mod_cast (by omega : S ≤ 9)
  obtain ⟨herr, hexact⟩ := lon_decode_error_f64 F S T hF0 hF hS0 hS hT0 hT
  rw [← hlon] at herr hexact
  rcases hT0.eq_or_lt with h | h
  · have hl := hexact h.symm
    have hx : f64Add lon 180 = 20 * (F : ℚ) + 2 * S := by
      have := f64Add_intCast (F * 20 + S * 2 - 180) 180 (by rw [abs_lt]; constructor <;> omega)
      rw [hl]
      push_cast at this
      rw [show 20 * (F : ℚ) + 2 * S - 180 = (F : ℚ) * 20 + (S : ℚ) * 2 - 180 by ring, this]
      ring
    obtain ⟨c1, c2, c3⟩ := lon_field_square_corner_f64 F S hF0 hF hS0 hS
    rw [hx]
    refine ⟨c1, c2, Or.inl ?_⟩
    rw [c3, ← h]
    unfold mathFloor f64Mul
    simp [f64Round_zero]
  · have hT1 : (1 : ℚ) ≤ T := by exact_mod_cast h
    have hT' : (T : ℚ) ≤ 23 := by exact_mod_cast (by omega : T ≤ 23)
    have herr' := abs_le.1 herr
    have b := f64Round_bounds (lon + 180) 361
      (by rw [abs_le]; constructor <;> linarith [herr'.1, herr'.2])
    norm_num at b
    have hxlo : 20 * (F : ℚ) + 2 * S + T / 12 - 2 / 10 ^ 13 ≤ f64Add lon 180 := by
      unfold f64Add; linarith [herr'.1, herr'.2, b.1, b.2]
    have hxhi : f64Add lon 180 ≤ 20 * (F : ℚ) + 2 * S + T / 12 + 2 / 10 ^ 13 := by
      unfold f64Add; linarith [herr'.1, herr'.2, b.1, b.2]
    obtain ⟨c1, c2, c3⟩ := lon_field_square_f64 F S hF0 hF hS0 hS (f64Add lon 180)
      (by linarith) (by linarith)
    refine ⟨c1, c2, ?_⟩
    rw [c3]
    rcases floor_mul_of_near (f64Add lon 180 - (20 * (F : ℚ) + 2 * S)) 12 T h hT
      (by linarith) (by linarith) with k | k
    · exact Or.inl k
    · exact Or.inr ⟨h, k⟩

/-- Latitude axis of the round trip in double precision: decoding the indices
`F`, `S`, `T` and encoding the result gives back `F` and `S`, and a subsquare
index equal to `T` or to `T - 1`. -/
theorem lat_round_trip_f64 (F S T : ℤ) (hF0 : 0 ≤ F) (hF : F < 18) (hS0 : 0 ≤ S) (hS : S < 10)
    (hT0 : 0 ≤ T) (hT : T < 24) (lat : ℚ)
    (hlat : lat = f64Sub (f64Add (f64Add (f64Mul (F : ℚ) 10) (S : ℚ)) (f64Div (T : ℚ) 24)) 90) :
    mathFloor (f64Div (f64Add lat 90) 10) = F ∧
    mathFloor (jsMod (f64Add lat 90) 10) = S ∧
    (mathFloor (f64Mul (jsMod (f64Add lat 90) 1) 24) = T ∨
      (1 ≤ T ∧ mathFloor (f64Mul (jsMod (f64Add lat 90) 1) 24) = T - 1)) := by
  have hF0' : (0 : ℚ) ≤ F := by exact_mod_cast hF0
  have hF' : (F : ℚ) ≤ 17 := by exact_mod_cast (by omega : F ≤ 17)
  have hS0' : (0 : ℚ) ≤ S := by exact_mod_cast hS0
  have hS' : (S : ℚ) ≤ 9 := by exact_mod_cast (by omega : S ≤ 9)
  obtain ⟨herr, hexact⟩ := lat_decode_error_f64 F S T hF0 hF hS0 hS hT0 hT
  rw [← hlat] at herr hexact
  rcases hT0.eq_or_lt with h | h
  · have hl := hexact h.symm
    have hx : f64Add lat 90 = 10 * (F : ℚ) + S := by
      have := f64Add_intCast (F * 10 + S - 90) 90 (by rw [abs_lt]; constructor <;> omega)
      rw [hl]
      push_cast at this
      rw [show 10 * (F : ℚ) + S - 90 = (F : ℚ) * 10 + (S : ℚ) - 90 by ring, this]
      ring
    obtain ⟨c1, c2, c3⟩ := lat_field_square_corner_f64 F S hF0 hF hS0 hS
    rw [hx]
    refine ⟨c1, c2, Or.inl ?_⟩
    rw [c3, ← h]
    unfold mathFloor f64Mul
    simp [f64Round_zero]
  · have hT1 : (1 : ℚ) ≤ T := by exact_mod_cast h
    have hT' : (T : ℚ) ≤ 23 := by exact_mod_cast (by omega : T ≤ 23)
    have herr' := abs_le.1 herr
    have b := f64Round_bounds (lat + 90) 181
      (by rw [abs_le]; constructor <;> linarith [herr'.1, herr'.2])
    norm_num at b
    have hxlo : 10 * (F : ℚ) + S + T / 24 - 1 / 10 ^ 13 ≤ f64Add lat 90 := by
      unfold f64Add; linarith [herr'.1, herr'.2, b.1, b.2]
    have hxhi : f64Add lat 90 ≤ 10 * (F : ℚ) + S + T / 24 + 1 / 10 ^ 13 := by
      unfold f64Add; linarith [herr'.1, herr'.2, b.1, b.2]
    obtain ⟨c1, c2, c3⟩ := lat_field_square_f64 F S hF0 hF hS0 hS (f64Add lat 90)
      (by linarith) (by linarith)
    refine ⟨c1, c2, ?_⟩
    rw [c3]
    rcases floor_mul_of_near (f64Add lat 90 - (10 * (F : ℚ) + S)) 24 T h hT
      (by linarith) (by linarith) with k | k
    · exact Or.inl k
    · exact Or.inr ⟨h, k⟩

/-! ## Two evaluations of the grid functions in double precision -/

/-- Decoding `FN42hi` in double precision. -/
theorem maidenheadToLatLonF64_FN42hi :
    maidenheadToLatLonF64 (jsStr "FN42hi") =
      { lat := some (1489471751760555 / 35184372088832), lon := some (-5025501146688171 / 70368744177664) } := by
  have hs : jsStr "FN42hi" = [70, 78, 52, 50, 104, 105] := by decide
  rw [hs, maidenheadToLatLonF64_valid 70 78 52 50 104 105 (by decide) (by decide) (by decide)
    (by decide) (by decide) (by decide)]
  have h1 : f64Mul 5 20 = 100 :=
    (congrArg f64Round (by norm_num : ((5 : ℚ) * 20) = 100)).trans
      ((f64Round_eval_down 100 (6) 7036874417766400 (by norm_num) (by norm_num) (by norm_num)
      (by norm_num)).trans (by norm_num))
  have h2 : f64Mul 4 2 = 8 :=
    (congrArg f64Round (by norm_num : ((4 : ℚ) * 2) = 8)).trans
      ((f64Round_eval_down 8 (3) 4503599627370496 (by norm_num) (by norm_num) (by norm_num)
      (by norm_num)).trans (by norm_num))
  have h3 : f64Add 100 8 = 108 :=
    (congrArg f64Round (by norm_num : ((100 : ℚ) + 8) = 108)).trans
      ((f64Round_eval_down 108 (6) 7599824371187712 (by norm_num) (by norm_num) (by norm_num)
      (by norm_num)).trans (by norm_num))
  have h4 : f64Div 7 12 = (5254199565265579 / 9007199254740992) :=
    (congrArg f64Round (by norm_num : ((7 : ℚ) / 12) = (7 / 12))).trans
      ((f64Round_eval_up (7 / 12) (-1) 5254199565265578 (by norm_num) (by norm_num) (by norm_num)
      (by norm_num)).trans (by norm_num))
  have h5 : f64Add 108 (5254199565265579 / 9007199254740992) = (7640872805291349 / 70368744177664) :=
    (congrArg f64Round (by norm_num : ((108 : ℚ) + (5254199565265579 / 9007199254740992)) = (978031719077292715 / 9007199254740992))).trans
      ((f64Round_eval_down (978031719077292715 / 9007199254740992) (6) 7640872805291349 (by norm_num) (by norm_num) (by norm_num)
      (by norm_num)).trans (by norm_num))
  have h6 : f64Sub (7640872805291349 / 70368744177664) 180 = (-5025501146688171 / 70368744177664) :=
    (congrArg f64Round (by norm_num : (((7640872805291349 / 70368744177664) : ℚ) - 180) = (-5025501146688171 / 70368744177664))).trans
      (f64Round_of_neg (-5025501146688171 / 70368744177664) (5025501146688171 / 70368744177664) (-5025501146688171 / 70368744177664) (5025501146688171 / 70368744177664) (by norm_num)
      ((f64Round_eval_down (5025501146688171 / 70368744177664) (6) 5025501146688171 (by norm_num) (by norm_num) (by norm_num)
      (by norm_num)).trans (by norm_num)) (by norm_num))
  have h7 : f64Mul 13 10 = 130 :=
    (congrArg f64Round (by norm_num : ((13 : ℚ) * 10) = 130)).trans
      ((f64Round_eval_down 130 (7) 4573968371548160 (by norm_num) (by norm_num) (by norm_num)
      (by norm_num)).trans (by norm_num))
  have h8 : f64Add 130 2 = 132 :=
    (congrArg f64Round (by norm_num : ((130 : ℚ) + 2) = 132)).trans
      ((f64Round_eval_down 132 (7) 4644337115725824 (by norm_num) (by norm_num) (by norm_num)
      (by norm_num)).trans (by norm_num))
  have h9 : f64Div 8 24 = (6004799503160661 / 18014398509481984) :=
    (congrArg f64Round (by norm_num : ((8 : ℚ) / 24) = (1 / 3))).trans
      ((f64Round_eval_down (1 / 3) (-2) 6004799503160661 (by norm_num) (by norm_num) (by norm_num)
      (by norm_num)).trans (by norm_num))
  have h10 : f64Add 132 (6004799503160661 / 18014398509481984) = (4656065239755435 / 35184372088832) :=
    (congrArg f64Round (by norm_num : ((132 : ℚ) + (6004799503160661 / 18014398509481984)) = (2383905402754782549 / 18014398509481984))).trans
      ((f64Round_eval_up (2383905402754782549 / 18014398509481984) (7) 4656065239755434 (by norm_num) (by norm_num) (by norm_num)
      (by norm_num)).trans (by norm_num))
  have h11 : f64Sub (4656065239755435 / 35184372088832) 90 = (1489471751760555 / 35184372088832) :=
    (congrArg f64Round (by norm_num : (((4656065239755435 / 35184372088832) : ℚ) - 90) = (1489471751760555 / 35184372088832))).trans
      ((f64Round_eval_down (1489471751760555 / 35184372088832) (5) 5957887007042220 (by norm_num) (by norm_num) (by norm_num)
      (by norm_num)).trans (by norm_num))
  norm_num only [Int.cast_sub, Int.cast_natCast, Int.cast_ofNat, Nat.cast_ofNat]
  rw [h1, h2, h3, h4, h5, h6, h7, h8, h9, h10, h11]
  all_goals norm_num

/-- Encoding, in double precision, the coordinates decoded from `FN42hi`: the result is `FN42gi`. -/
theorem latLonToMaidenheadF64_of_FN42hi :
    latLonToMaidenheadF64 (1489471751760555 / 35184372088832) (-5025501146688171 / 70368744177664) = jsStr "FN42gi" := by
  have h1 : f64Add (-5025501146688171 / 70368744177664) 180 = (7640872805291349 / 70368744177664) :=
    (congrArg f64Round (by norm_num : (((-5025501146688171 / 70368744177664) : ℚ) + 180) = (7640872805291349 / 70368744177664))).trans
      ((f64Round_eval_down (7640872805291349 / 70368744177664) (6) 7640872805291349 (by norm_num) (by norm_num) (by norm_num)
      (by norm_num)).trans (by norm_num))
  obtain ⟨c1, c2, c3⟩ := lon_field_square_f64 5 4 (by decide) (by decide) (by decide)
    (by decide) (7640872805291349 / 70368744177664) (by norm_num) (by norm_num)
  have cT : mathFloor (f64Mul (jsMod (7640872805291349 / 70368744177664) 2) 12) = 6 :=
    floor_mul_of_inside _ 12 6 (by decide) (by decide) (by rw [c3]; norm_num)
      (by rw [c3]; norm_num)
  have h2 : f64Add (1489471751760555 / 35184372088832) 90 = (4656065239755435 / 35184372088832) :=
    (congrArg f64Round (by norm_num : (((1489471751760555 / 35184372088832) : ℚ) + 90) = (4656065239755435 / 35184372088832))).trans
      ((f64Round_eval_down (4656065239755435 / 35184372088832) (7) 4656065239755435 (by norm_num) (by norm_num) (by norm_num)
      (by norm_num)).trans (by norm_num))
  obtain ⟨d1, d2, d3⟩ := lat_field_square_f64 13 2 (by decide) (by decide) (by decide)
    (by decide) (4656065239755435 / 35184372088832) (by norm_num) (by norm_num)
  have dT : mathFloor (f64Mul (jsMod (4656065239755435 / 35184372088832) 1) 24) = 8 :=
    floor_mul_of_inside _ 24 8 (by decide) (by decide) (by rw [d3]; norm_num)
      (by rw [d3]; norm_num)
  rw [latLonToMaidenheadF64_of_digits (1489471751760555 / 35184372088832) (-5025501146688171 / 70368744177664) 5 13 4 2 6 8
    (by rw [h1]; exact c1) (by rw [h2]; exact d1) (by rw [h1]; exact c2)
    (by rw [h2]; exact d2) (by rw [h1]; exact cT) (by rw [h2]; exact dT)]
  decide

/-- Encoding, in double precision, the point `(0.5, -63.00000000000001)`, whose longitude is the binary64 number `-(63 + 2⁻⁴⁷)`: the sum `lon + 180` rounds to `117` and the result is `FJ80mm`. -/
theorem latLonToMaidenheadF64_near_boundary :
    latLonToMaidenheadF64 (1 / 2) (-8866461766385665 / 140737488355328) = jsStr "FJ80mm" := by
  have h1 : f64Add (-8866461766385665 / 140737488355328) 180 = 117 :=
    (congrArg f64Round (by norm_num : (((-8866461766385665 / 140737488355328) : ℚ) + 180) = (16466286137573375 / 140737488355328))).trans
      ((f64Round_eval_tie_up (16466286137573375 / 140737488355328) (6) 8233143068786687 (by norm_num) (by norm_num) (by norm_num)
      (by decide)).trans (by norm_num))
  obtain ⟨c1, c2, c3⟩ := lon_field_square_f64 5 8 (by decide) (by decide) (by decide)
    (by decide) 117 (by norm_num) (by norm_num)
  have cp : f64Mul (jsMod 117 2) 12 = 12 := by
    rw [c3]
    exact (congrArg f64Round (by norm_num : (117 - (20 * ((5 : ℤ) : ℚ) + 2 * ((8 : ℤ) : ℚ))) * 12 = 12)).trans
      ((f64Round_eval_down 12 (3) 6755399441055744 (by norm_num) (by norm_num) (by norm_num)
      (by norm_num)).trans (by norm_num))
  have cT : mathFloor (f64Mul (jsMod 117 2) 12) = 12 := by
    rw [cp]; unfold mathFloor; norm_num
  have h2 : f64Add (1 / 2) 90 = (181 / 2) :=
    (congrArg f64Round (by norm_num : (((1 / 2) : ℚ) + 90) = (181 / 2))).trans
      ((f64Round_eval_down (181 / 2) (6) 6368371348078592 (by norm_num) (by norm_num) (by norm_num)
      (by norm_num)).trans (by norm_num))
  obtain ⟨d1, d2, d3⟩ := lat_field_square_f64 9 0 (by decide) (by decide) (by decide)
    (by decide) (181 / 2) (by norm_num) (by norm_num)
  have dp : f64Mul (jsMod (181 / 2) 1) 24 = 12 := by
    rw [d3]
    exact (congrArg f64Round (by norm_num : ((181 / 2) - (10 * ((9 : ℤ) : ℚ) + ((0 : ℤ) : ℚ))) * 24 = 12)).trans
      ((f64Round_eval_down 12 (3) 6755399441055744 (by norm_num) (by norm_num) (by norm_num)
      (by norm_num)).trans (by norm_num))
  have dT : mathFloor (f64Mul (jsMod (181 / 2) 1) 24) = 12 := by
    rw [dp]; unfold mathFloor; norm_num
  rw [latLonToMaidenheadF64_of_digits (1 / 2) (-8866461766385665 / 140737488355328) 5 9 8 0 12 12
    (by rw [h1]; exact c1) (by rw [h2]; exact d1) (by rw [h1]; exact c2)
    (by rw [h2]; exact d2) (by rw [h1]; exact cT) (by rw [h2]; exact dT)]
  decide

/-- Decoding `FJ80mm` in double precision. -/
theorem maidenheadToLatLonF64_FJ80mm :
    maidenheadToLatLonF64 (jsStr "FJ80mm") =
      { lat := some (1 / 2), lon := some (-63) } := by
  have hs : jsStr "FJ80mm" = [70, 74, 56, 48, 109, 109] := by decide
  rw [hs, maidenheadToLatLonF64_valid 70 74 56 48 109 109 (by decide) (by decide) (by decide)
    (by decide) (by decide) (by decide)]
  have h1 : f64Mul 5 20 = 100 :=
    (congrArg f64Round (by norm_num : ((5 : ℚ) * 20) = 100)).trans
      ((f64Round_eval_down 100 (6) 7036874417766400 (by norm_num) (by norm_num) (by norm_num)
      (by norm_num)).trans (by norm_num))
  have h2 : f64Mul 8 2 = 16 :=
    (congrArg f64Round (by norm_num : ((8 : ℚ) * 2) = 16)).trans
      ((f64Round_eval_down 16 (4) 4503599627370496 (by norm_num) (by norm_num) (by norm_num)
      (by norm_num)).trans (by norm_num))
  have h3 : f64Add 100 16 = 116 :=
    (congrArg f64Round (by norm_num : ((100 : ℚ) + 16) = 116)).trans
      ((f64Round_eval_down 116 (6) 8162774324609024 (by norm_num) (by norm_num) (by norm_num)
      (by norm_num)).trans (by norm_num))
  have h4 : f64Div 12 12 = 1 :=
    (congrArg f64Round (by norm_num : ((12 : ℚ) / 12) = 1)).trans
      ((f64Round_eval_down 1 (0) 4503599627370496 (by norm_num) (by norm_num) (by norm_num)
      (by norm_num)).trans (by norm_num))
  have h5 : f64Add 116 1 = 117 :=
    (congrArg f64Round (by norm_num : ((116 : ℚ) + 1) = 117)).trans
      ((f64Round_eval_down 117 (6) 8233143068786688 (by norm_num) (by norm_num) (by norm_num)
      (by norm_num)).trans (by norm_num))
  have h6 : f64Sub 117 180 = (-63) :=
    (congrArg f64Round (by norm_num : ((117 : ℚ) - 180) = (-63))).trans
      (f64Round_of_neg (-63) 63 (-63) 63 (by norm_num)
      ((f64Round_eval_down 63 (5) 8866461766385664 (by norm_num) (by norm_num) (by norm_num)
      (by norm_num)).trans (by norm_num)) (by norm_num))
  have h7 : f64Mul 9 10 = 90 :=
    (congrArg f64Round (by norm_num : ((9 : ℚ) * 10) = 90)).trans
      ((f64Round_eval_down 90 (6) 6333186975989760 (by norm_num) (by norm_num) (by norm_num)
      (by norm_num)).trans (by norm_num))
  have h8 : f64Add 90 0 = 90 :=
    (congrArg f64Round (by norm_num : ((90 : ℚ) + 0) = 90)).trans
      ((f64Round_eval_down 90 (6) 6333186975989760 (by norm_num) (by norm_num) (by norm_num)
      (by norm_num)).trans (by norm_num))
  have h9 : f64Div 12 24 = (1 / 2) :=
    (congrArg f64Round (by norm_num : ((12 : ℚ) / 24) = (1 / 2))).trans
      ((f64Round_eval_down (1 / 2) (-1) 4503599627370496 (by norm_num) (by norm_num) (by norm_num)
      (by norm_num)).trans (by norm_num))
  have h10 : f64Add 90 (1 / 2) = (181 / 2) :=
    (congrArg f64Round (by norm_num : ((90 : ℚ) + (1 / 2)) = (181 / 2))).trans
      ((f64Round_eval_down (181 / 2) (6) 6368371348078592 (by norm_num) (by norm_num) (by norm_num)
      (by norm_num)).trans (by norm_num))
  have h11 : f64Sub (181 / 2) 90 = (1 / 2) :=
    (congrArg f64Round (by norm_num : (((181 / 2) : ℚ) - 90) = (1 / 2))).trans
      ((f64Round_eval_down (1 / 2) (-1) 4503599627370496 (by norm_num) (by norm_num) (by norm_num)
      (by norm_num)).trans (by norm_num))
  norm_num only [Int.cast_sub, Int.cast_natCast, Int.cast_ofNat, Nat.cast_ofNat]
  rw [h1, h2, h3, h4, h5, h6, h7, h8, h9, h10, h11]

/-! ## Grid locator in double precision: round trip and lossy inverse -/

/-- Longitude axis of encoding in double precision, away from the subsquare
boundaries: the three indices are those of the exact subsquare of `lon`. -/
theorem lon_encode_f64 (lon : ℚ) (h0 : -180 ≤ lon) (h1 : lon < 180)
    (hm : ∀ k : ℤ, 1 / 10 ^ 12 ≤ |lon + 180 - (k : ℚ) / 12|) :
    ∃ F S T : ℤ, (0 ≤ F ∧ F < 18) ∧ (0 ≤ S ∧ S < 10) ∧ (0 ≤ T ∧ T < 24) ∧
      mathFloor (f64Div (f64Add lon 180) 20) = F ∧
      mathFloor (f64Div (jsMod (f64Add lon 180) 20) 2) = S ∧
      mathFloor (f64Mul (jsMod (f64Add lon 180) 2) 12) = T ∧
      20 * (F : ℚ) + 2 * S + T / 12 + 1 / 10 ^ 12 ≤ lon + 180 ∧
      lon + 180 ≤ 20 * (F : ℚ) + 2 * S + T / 12 + 1 / 12 - 1 / 10 ^ 12 := by
  obtain ⟨rF, rS, rT, lo, hi⟩ := lon_digits_bracket (lon + 180) (by linarith) (by linarith)
  generalize mathFloor ((lon + 180) / 20) = F at *
  generalize mathFloor (jsMod (lon + 180) 20 / 2) = S at *
  generalize mathFloor (jsMod (lon + 180) 2 * 12) = T at *
  have hF0' : (0 : ℚ) ≤ F := by exact_mod_cast rF.1
  have hF' : (F : ℚ) ≤ 17 := by exact_mod_cast (by omega : F ≤ 17)
  have hS0' : (0 : ℚ) ≤ S := by exact_mod_cast rS.1
  have hS' : (S : ℚ) ≤ 9 := by exact_mod_cast (by omega : S ≤ 9)
  have hT0' : (0 : ℚ) ≤ T := by exact_mod_cast rT.1
  have hT' : (T : ℚ) ≤ 23 := by exact_mod_cast (by omega : T ≤ 23)
  have m1 := hm (240 * F + 24 * S + T)
  have m2 := hm (240 * F + 24 * S + T + 1)
  push_cast at m1 m2
  have g1 : 20 * (F : ℚ) + 2 * S + T / 12 + 1 / 10 ^ 12 ≤ lon + 180 := by
    rw [abs_of_nonneg (by linarith)] at m1
    linarith
  have g2 : lon + 180 ≤ 20 * (F : ℚ) + 2 * S + T / 12 + 1 / 12 - 1 / 10 ^ 12 := by
    rw [abs_of_neg (by linarith)] at m2
    linarith
  have b := f64Round_bounds (lon + 180) 360 (by rw [abs_le]; constructor <;> linarith)
  norm_num at b g1 g2
  have bx1 : lon + 180 - 1 / 10 ^ 13 ≤ f64Add lon 180 := by
    unfold f64Add; norm_num; linarith [b.1]
  have bx2 : f64Add lon 180 ≤ lon + 180 + 1 / 10 ^ 13 := by
    unfold f64Add; norm_num; linarith [b.2]
  norm_num at bx1 bx2
  obtain ⟨c1, c2, c3⟩ := lon_field_square_f64 F S rF.1 rF.2 rS.1 rS.2 (f64Add lon 180)
    (by norm_num; linarith) (by norm_num; linarith)
  have c4 : mathFloor (f64Mul (jsMod (f64Add lon 180) 2) 12) = T :=
    floor_mul_of_inside _ 12 T rT.1 rT.2 (by rw [c3]; norm_num; linarith)
      (by rw [c3]; norm_num; linarith)
  exact ⟨F, S, T, rF, rS, rT, c1, c2, c4, by norm_num; linarith, by norm_num; linarith⟩

/-- Latitude axis of encoding in double precision, away from the subsquare
boundaries: the three indices are those of the exact subsquare of `lat`. -/
theorem lat_encode_f64 (lat : ℚ) (h0 : -90 ≤ lat) (h1 : lat < 90)
    (hm : ∀ k : ℤ, 1 / 10 ^ 12 ≤ |lat + 90 - (k : ℚ) / 24|) :
    ∃ F S T : ℤ, (0 ≤ F ∧ F < 18) ∧ (0 ≤ S ∧ S < 10) ∧ (0 ≤ T ∧ T < 24) ∧
      mathFloor (f64Div (f64Add lat 90) 10) = F ∧
      mathFloor (jsMod (f64Add lat 90) 10) = S ∧
      mathFloor (f64Mul (jsMod (f64Add lat 90) 1) 24) = T ∧
      10 * (F : ℚ) + S + T / 24 + 1 / 10 ^ 12 ≤ lat + 90 ∧
      lat + 90 ≤ 10 * (F : ℚ) + S + T / 24 + 1 / 24 - 1 / 10 ^ 12 := by
  obtain ⟨rF, rS, rT, lo, hi⟩ := lat_digits_bracket (lat + 90) (by linarith) (by linarith)
  generalize mathFloor ((lat + 90) / 10) = F at *
  generalize mathFloor (jsMod (lat + 90) 10) = S at *
  generalize mathFloor (jsMod (lat + 90) 1 * 24) = T at *
  have hF0' : (0 : ℚ) ≤ F := by exact_mod_cast rF.1
  have hF' : (F : ℚ) ≤ 17 := by exact_mod_cast (by omega : F ≤ 17)
  have hS0' : (0 : ℚ) ≤ S := by exact_mod_cast rS.1
  have hS' : (S : ℚ) ≤ 9 := by exact_mod_cast (by omega : S ≤ 9)
  have hT0' : (0 : ℚ) ≤ T := by exact_mod_cast rT.1
  have hT' : (T : ℚ) ≤ 23 := by exact_mod_cast (by omega : T ≤ 23)
  have m1 := hm (240 * F + 24 * S + T)
  have m2 := hm (240 * F + 24 * S + T + 1)
  push_cast at m1 m2
  have g1 : 10 * (F : ℚ) + S + T / 24 + 1 / 10 ^ 12 ≤ lat + 90 := by
    rw [abs_of_nonneg (by linarith)] at m1
    linarith
  have g2 : lat + 90 ≤ 10 * (F : ℚ) + S + T / 24 + 1 / 24 - 1 / 10 ^ 12 := by
    rw [abs_of_neg (by linarith)] at m2
    linarith
  have b := f64Round_bounds (lat + 90) 180 (by rw [abs_le]; constructor <;> linarith)
  norm_num at b g1 g2
  have bx1 : lat + 90 - 1 / 10 ^ 13 ≤ f64Add lat 90 := by
    unfold f64Add; norm_num; linarith [b.1]
  have bx2 : f64Add lat 90 ≤ lat + 90 + 1 / 10 ^ 13 := by
    unfold f64Add; norm_num; linarith [b.2]
  norm_num at bx1 bx2
  obtain ⟨c1, c2, c3⟩ := lat_field_square_f64 F S rF.1 rF.2 rS.1 rS.2 (f64Add lat 90)
    (by norm_num; linarith) (by norm_num; linarith)
  have c4 : mathFloor (f64Mul (jsMod (f64Add lat 90) 1) 24) = T :=
    floor_mul_of_inside _ 24 T rT.1 rT.2 (by rw [c3]; norm_num; linarith)
      (by rw [c3]; norm_num; linarith)
  exact ⟨F, S, T, rF, rS, rT, c1, c2, c4, by norm_num; linarith, by norm_num; linarith⟩

/-- C1 (counterexample). As the code computes, in double precision, the round
trip of the valid locator `FN42hi` does not return it: decoding gives the
longitude `-71.41666666666667`, just below the subsquare corner `-857/12`, and
encoding that point gives `FN42gi`. -/
theorem grid_round_trip_FN42hi :
    isValidLocator (jsStr "FN42hi") = true ∧
    maidenheadToLatLonF64 (jsStr "FN42hi") =
      { lat := some (1489471751760555 / 35184372088832),
        lon := some (-5025501146688171 / 70368744177664) } ∧
    (-5025501146688171 / 70368744177664 : ℚ) < -857 / 12 ∧
    latLonToMaidenheadF64 (1489471751760555 / 35184372088832)
      (-5025501146688171 / 70368744177664) = jsStr "FN42gi" ∧
    latLonToMaidenheadF64 (1489471751760555 / 35184372088832)
      (-5025501146688171 / 70368744177664) ≠ jsStr "FN42hi" := by
  refine ⟨by decide, maidenheadToLatLonF64_FN42hi, by norm_num,
    latLonToMaidenheadF64_of_FN42hi, ?_⟩
  rw [latLonToMaidenheadF64_of_FN42hi]
  decide

/-- C1 (amended). As the code computes, in double precision: for every valid
6-character locator `g`, `maidenheadToLatLon g` is a pair of finite numbers and
`latLonToMaidenhead` applied to it returns a valid locator with the same first
four characters as `g`, whose fifth and sixth characters are each the letter of
`g` or the letter just before it (a letter `a` is returned unchanged). -/
theorem grid_round_trip_f64 (g : JSString) (hg : isValidLocator g = true) :
    ∃ (lat lon : ℚ) (a b c d e f e' f' : Nat),
      g = [a, b, c, d, e, f] ∧
      maidenheadToLatLonF64 g = { lat := some lat, lon := some lon } ∧
      latLonToMaidenheadF64 lat lon = [a, b, c, d, e', f'] ∧
      isValidLocator (latLonToMaidenheadF64 lat lon) = true ∧
      (e' = e ∨ (98 ≤ e ∧ e' + 1 = e)) ∧ (f' = f ∨ (98 ≤ f ∧ f' + 1 = f)) := by
  obtain ⟨a, b, c, d, e, f, rfl, ha, hb, hc, hd, he, hf⟩ := (isValidLocator_iff g).1 hg
  have hdec := maidenheadToLatLonF64_valid a b c d e f ha hb hc hd he hf
  obtain ⟨x1, x2, x3⟩ := lon_round_trip_f64 ((a : ℤ) - 65) ((c : ℤ) - 48) ((e : ℤ) - 97)
    (by omega) (by omega) (by omega) (by omega) (by omega) (by omega) _ rfl
  obtain ⟨y1, y2, y3⟩ := lat_round_trip_f64 ((b : ℤ) - 65) ((d : ℤ) - 48) ((f : ℤ) - 97)
    (by omega) (by omega) (by omega) (by omega) (by omega) (by omega) _ rfl
  obtain ⟨T1, hT1, rT1⟩ : ∃ T1 : ℤ, mathFloor (f64Mul (jsMod (f64Add
      (f64Sub (f64Add (f64Add (f64Mul (((a : ℤ) - 65 : ℤ) : ℚ) 20)
        (f64Mul (((c : ℤ) - 48 : ℤ) : ℚ) 2)) (f64Div (((e : ℤ) - 97 : ℤ) : ℚ) 12)) 180)
      180) 2) 12) = T1 ∧ (T1 = (e : ℤ) - 97 ∨ (1 ≤ (e : ℤ) - 97 ∧ T1 = (e : ℤ) - 97 - 1)) := by
    rcases x3 with h | ⟨h1, h⟩
    · exact ⟨_, rfl, Or.inl h⟩
    · exact ⟨_, rfl, Or.inr ⟨h1, h⟩⟩
  obtain ⟨T2, hT2, rT2⟩ : ∃ T2 : ℤ, mathFloor (f64Mul (jsMod (f64Add
      (f64Sub (f64Add (f64Add (f64Mul (((b : ℤ) - 65 : ℤ) : ℚ) 10)
        (((d : ℤ) - 48 : ℤ) : ℚ)) (f64Div (((f : ℤ) - 97 : ℤ) : ℚ) 24)) 90)
      90) 1) 24) = T2 ∧ (T2 = (f : ℤ) - 97 ∨ (1 ≤ (f : ℤ) - 97 ∧ T2 = (f : ℤ) - 97 - 1)) := by
    rcases y3 with h | ⟨h1, h⟩
    · exact ⟨_, rfl, Or.inl h⟩
    · exact ⟨_, rfl, Or.inr ⟨h1, h⟩⟩
  have henc := latLonToMaidenheadF64_in_range _ _ _ _ _ _ T1 T2 x1 y1 x2 y2 hT1 hT2
    (by omega) (by omega) (by omega) (by omega) (by omega) (by omega)
  have e1 : (65 + ((a : ℤ) - 65)).toNat = a := by omega
  have e2 : (65 + ((b : ℤ) - 65)).toNat = b := by omega
  have e3 : (48 + ((c : ℤ) - 48)).toNat = c := by omega
  have e4 : (48 + ((d : ℤ) - 48)).toNat = d := by omega
  rw [e1, e2, e3, e4] at henc
  refine ⟨_, _, a, b, c, d, e, f, (97 + T1).toNat, (97 + T2).toNat, rfl, hdec, henc, ?_,
    by omega, by omega⟩
  rw [henc, isValidLocator_iff]
  exact ⟨_, _, _, _, _, _, rfl, ha, hb, hc, hd, by omega, by omega⟩

/-- Witness of C1 (amended) at the locator `FN42hi`. -/
theorem grid_round_trip_f64_witness :
    isValidLocator (jsStr "FN42hi") = true ∧
    ∃ (lat lon : ℚ) (a b c d e f e' f' : Nat),
      jsStr "FN42hi" = [a, b, c, d, e, f] ∧
      maidenheadToLatLonF64 (jsStr "FN42hi") = { lat := some lat, lon := some lon } ∧
      latLonToMaidenheadF64 lat lon = [a, b, c, d, e', f'] ∧
      isValidLocator (latLonToMaidenheadF64 lat lon) = true ∧
      (e' = e ∨ (98 ≤ e ∧ e' + 1 = e)) ∧ (f' = f ∨ (98 ≤ f ∧ f' + 1 = f)) :=
  ⟨by decide, grid_round_trip_f64 (jsStr "FN42hi") (by decide)⟩

/-- C5 (counterexample). As the code computes, in double precision, at the
point `(0.5, -63.00000000000001)`, whose longitude is the binary64 number
`-(63 + 2⁻⁴⁷)`, the sum `lon + 180` rounds to `117`: the locator is `FJ80mm`,
which decodes to longitude `-63`, greater than the longitude of the point. -/
theorem decode_encode_near_boundary :
    ((-90 : ℚ) ≤ 1 / 2 ∧ (1 / 2 : ℚ) < 90 ∧ (-180 : ℚ) ≤ -(63 + 1 / 2 ^ 47) ∧
      (-(63 + 1 / 2 ^ 47) : ℚ) < 180) ∧
    f64Round (-(63 + 1 / 2 ^ 47)) = -(63 + 1 / 2 ^ 47) ∧
    latLonToMaidenheadF64 (1 / 2) (-(63 + 1 / 2 ^ 47)) = jsStr "FJ80mm" ∧
    maidenheadToLatLonF64 (jsStr "FJ80mm") = { lat := some (1 / 2), lon := some (-63) } ∧
    ¬ ((-63 : ℚ) ≤ -(63 + 1 / 2 ^ 47)) := by
  have e : (-(63 + 1 / 2 ^ 47) : ℚ) = -8866461766385665 / 140737488355328 := by norm_num
  refine ⟨by norm_num, ?_, ?_, maidenheadToLatLonF64_FJ80mm, by norm_num⟩
  · exact f64Round_of_neg _ (63 + 1 / 2 ^ 47) _ (63 + 1 / 2 ^ 47) (by norm_num)
      ((f64Round_eval_down (63 + 1 / 2 ^ 47) 5 8866461766385665 (by norm_num) (by norm_num)
        (by norm_num) (by norm_num)).trans (by norm_num)) rfl
  · rw [e]
    exact latLonToMaidenheadF64_near_boundary

/-- C5 (amended). As the code computes, in double precision, decoding lands on
the lower-left corner of the encoded subsquare for every point that is not
within `10⁻¹²` degrees of a subsquare boundary: for latitude in `[-90, 90)` and
longitude in `[-180, 180)` with `lon + 180` at least `10⁻¹²` away from every
multiple of `1/12` and `lat + 90` at least `10⁻¹²` away from every multiple of
`1/24`, decoding the locator of the point gives finite `d` with
`d.lon ≤ lon < d.lon + 1/12` and `d.lat ≤ lat < d.lat + 1/24`. -/
theorem decode_encode_lower_left_f64 (lat lon : ℚ) (hlat0 : -90 ≤ lat) (hlat1 : lat < 90)
    (hlon0 : -180 ≤ lon) (hlon1 : lon < 180)
    (hlonm : ∀ k : ℤ, 1 / 10 ^ 12 ≤ |lon + 180 - (k : ℚ) / 12|)
    (hlatm : ∀ k : ℤ, 1 / 10 ^ 12 ≤ |lat + 90 - (k : ℚ) / 24|) :
    ∃ dlat dlon : ℚ,
      maidenheadToLatLonF64 (latLonToMaidenheadF64 lat lon)
        = { lat := some dlat, lon := some dlon } ∧
      (dlon ≤ lon ∧ lon < dlon + 1 / 12) ∧ (dlat ≤ lat ∧ lat < dlat + 1 / 24) := by
  obtain ⟨F1, S1, T1, rF1, rS1, rT1, x1, x2, x3, lo1, hi1⟩ :=
    lon_encode_f64 lon hlon0 hlon1 hlonm
  obtain ⟨F2, S2, T2, rF2, rS2, rT2, y1, y2, y3, lo2, hi2⟩ :=
    lat_encode_f64 lat hlat0 hlat1 hlatm
  rw [latLonToMaidenheadF64_in_range lat lon F1 F2 S1 S2 T1 T2 x1 y1 x2 y2 x3 y3
    rF1 rF2 rS1 rS2 rT1 rT2]
  have hdec := maidenheadToLatLonF64_valid (65 + F1).toNat (65 + F2).toNat (48 + S1).toNat
    (48 + S2).toNat (97 + T1).toNat (97 + T2).toNat (by omega) (by omega) (by omega)
    (by omega) (by omega) (by omega)
  have e1 : ((65 + F1).toNat : ℤ) - 65 = F1 := by omega
  have e2 : ((65 + F2).toNat : ℤ) - 65 = F2 := by omega
  have e3 : ((48 + S1).toNat : ℤ) - 48 = S1 := by omega
  have e4 : ((48 + S2).toNat : ℤ) - 48 = S2 := by omega
  have e5 : ((97 + T1).toNat : ℤ) - 97 = T1 := by omega
  have e6 : ((97 + T2).toNat : ℤ) - 97 = T2 := by omega
  rw [e1, e2, e3, e4, e5, e6] at hdec
  obtain ⟨d1, -⟩ := lon_decode_error_f64 F1 S1 T1 rF1.1 rF1.2 rS1.1 rS1.2 rT1.1 rT1.2
  obtain ⟨d2, -⟩ := lat_decode_error_f64 F2 S2 T2 rF2.1 rF2.2 rS2.1 rS2.2 rT2.1 rT2.2
  have d1' := abs_le.1 d1
  have d2' := abs_le.1 d2
  norm_num at d1' d2' lo1 hi1 lo2 hi2
  refine ⟨_, _, hdec, ⟨?_, ?_⟩, ⟨?_, ?_⟩⟩
  · linarith [d1'.1, d1'.2]
  · linarith [d1'.1, d1'.2]
  · linarith [d2'.1, d2'.2]
  · linarith [d2'.1, d2'.2]

/-- Witness of C5 (amended) at the point `(1/48, 1/24)`, in the middle of its
subsquare. -/
theorem decode_encode_lower_left_f64_witness :
    ((-90 : ℚ) ≤ 1 / 48 ∧ (1 / 48 : ℚ) < 90 ∧ (-180 : ℚ) ≤ 1 / 24 ∧ (1 / 24 : ℚ) < 180) ∧
    ∃ dlat dlon : ℚ,
      maidenheadToLatLonF64 (latLonToMaidenheadF64 (1 / 48) (1 / 24))
        = { lat := some dlat, lon := some dlon } ∧
      (dlon ≤ 1 / 24 ∧ (1 / 24 : ℚ) < dlon + 1 / 12) ∧
      (dlat ≤ 1 / 48 ∧ (1 / 48 : ℚ) < dlat + 1 / 24) := by
  refine ⟨by norm_num, decode_encode_lower_left_f64 (1 / 48) (1 / 24) (by norm_num)
    (by norm_num) (by norm_num) (by norm_num) ?_ ?_⟩
  · intro k
    rcases le_or_lt k 2160 with h | h
    · have h' : (k : ℚ) ≤ 2160 := by exact_mod_cast h
      rw [abs_of_nonneg (by linarith)]
      linarith
    · have h' : (2161 : ℚ) ≤ k := by exact_mod_cast h
      rw [abs_of_nonpos (by linarith)]
      linarith
  · intro k
    rcases le_or_lt k 2160 with h | h
    · have h' : (k : ℚ) ≤ 2160 := by exact_mod_cast h
      rw [abs_of_nonneg (by linarith)]
      linarith
    · have h' : (2161 : ℚ) ≤ k := by exact_mod_cast h
      rw [abs_of_nonpos (by linarith)]
      linarith

/-! ## Lemmas on `atan2` -/

theorem atan2_zero_zero : atan2 0 0 = 0 := by
  simp [atan2]

theorem atan2_of_pos (y x : ℝ) (hx : 0 < x) : atan2 y x = Real.arctan (y / x) := by
  simp [atan2, hx]

/-- The result of `atan2` lies in `(-π, π]`. -/
theorem atan2_mem (y x : ℝ) : -Real.pi < atan2 y x ∧ atan2 y x ≤ Real.pi := by
  have hpi := Real.pi_pos
  have h1 := Real.neg_pi_div_two_lt_arctan (y / x)
  have h2 := Real.arctan_lt_pi_div_two (y / x)
  unfold atan2
  split_ifs with hx hx' hy hy' hy''
  · constructor <;> linarith
  · have hq : y / x ≤ 0 := div_nonpos_of_nonneg_of_nonpos hy hx'.le
    have := Real.arctan_strictMono.monotone hq
    rw [Real.arctan_zero] at this
    constructor <;> linarith
  · have hq : 0 < y / x := div_pos_of_neg_of_neg (not_le.1 hy) hx'
    have := Real.arctan_strictMono hq
    rw [Real.arctan_zero] at this
    constructor <;> linarith
  · constructor <;> linarith
  · constructor <;> linarith
  · constructor <;> linarith

/-- The haversine term does not depend on the order of the two points. -/
theorem haversineA_comm (p q : GeoPoint) : haversineA p q = haversineA q p := by
  unfold haversineA
  have e1 : (p.lat - q.lat) * Real.pi / 180 / 2 = -((q.lat - p.lat) * Real.pi / 180 / 2) := by
    ring
  have e2 : (p.lon - q.lon) * Real.pi / 180 / 2 = -((q.lon - p.lon) * Real.pi / 180 / 2) := by
    ring
  simp only [e1, e2, Real.sin_neg]
  ring

theorem haversineA_self (p : GeoPoint) : haversineA p p = 0 := by
  simp [haversineA]

/-- Normalising an angle above `-π` radians: in degrees, plus 360, modulo 360,
it lies in `[0, 360)`. -/
theorem normalise_bearing_range (t : ℝ) (h0 : -Real.pi < t) :
    0 ≤ jsMod (t * 180 / Real.pi + 360) 360 ∧ jsMod (t * 180 / Real.pi + 360) 360 < 360 := by
  have hpi := Real.pi_pos
  have hlo : -180 < t * 180 / Real.pi := by
    rw [lt_div_iff₀ hpi]; linarith
  exact ⟨jsMod_nonneg _ 360 (by linarith) (by norm_num),
    jsMod_lt _ 360 (by linarith) (by norm_num)⟩

/-! ## Geodesy: distance and bearing -/

/-- C6. Over the real numbers `calculateDistance` is symmetric,
`calculateDistance a b = calculateDistance b a`, and the distance from a point
to itself is `0`; this holds for all points, in particular for latitude in
`[-90, 90]` and longitude in `[-180, 180]`. -/
theorem calculateDistance_symm_and_self (a b : GeoPoint) :
    calculateDistance a b = calculateDistance b a ∧ calculateDistance a a = 0 := by
  constructor
  · unfold calculateDistance
    rw [haversineA_comm a b]
  · unfold calculateDistance
    rw [haversineA_self a]
    simp [atan2_of_pos]

/-- C7. Over the real numbers `calculateBearing a b` lies in `[0, 360)`, and
`calculateBearing a a = 0`: at the degenerate `atan2(0, 0)` the result is `0`.
This holds for all points, in particular for latitude in `[-90, 90]` and
longitude in `[-180, 180]`. -/
theorem calculateBearing_range_and_self (a b : GeoPoint) :
    (0 ≤ calculateBearing a b ∧ calculateBearing a b < 360) ∧ calculateBearing a a = 0 := by
  have hpi := Real.pi_pos
  refine ⟨?_, ?_⟩
  · unfold calculateBearing
    simp only
    exact normalise_bearing_range _ (atan2_mem _ _).1
  · unfold calculateBearing
    simp only
    have hy : Real.sin ((a.lon - a.lon) * Real.pi / 180) * Real.cos (a.lat * Real.pi / 180)
        = 0 := by
      rw [sub_self, zero_mul, zero_div, Real.sin_zero, zero_mul]
    have hx : Real.cos (a.lat * Real.pi / 180) * Real.sin (a.lat * Real.pi / 180)
        - Real.sin (a.lat * Real.pi / 180) * Real.cos (a.lat * Real.pi / 180)
          * Real.cos ((a.lon - a.lon) * Real.pi / 180) = 0 := by
      rw [sub_self, zero_mul, zero_div, Real.cos_zero]
      ring
    rw [hy, hx, atan2_zero_zero]
    exact jsMod_of_decomp _ 360 0 1 (by norm_num) (by norm_num) le_rfl (by norm_num)
      (by norm_num)

/-! ## Haversine term and distance range -/

theorem cos_sub_mul_cos_add (u v : ℝ) :
    Real.cos (u - v) * Real.cos (u + v) = Real.cos u ^ 2 - Real.sin v ^ 2 := by
  have h1 := Real.sin_sq_add_cos_sq u
  have h2 := Real.sin_sq_add_cos_sq v
  rw [Real.cos_sub, Real.cos_add]
  nlinarith [h1, h2]

/-- The product of the two cosines in the haversine term, through the half sum
and the half difference of the latitudes. -/
theorem cos_mul_cos_half (A B : ℝ) :
    Real.cos A * Real.cos B
      = Real.cos ((A + B) / 2) ^ 2 - Real.sin ((B - A) / 2) ^ 2 := by
  have h := cos_sub_mul_cos_add ((A + B) / 2) ((B - A) / 2)
  have hA : (A + B) / 2 - (B - A) / 2 = A := by ring
  have hB : (A + B) / 2 + (B - A) / 2 = B := by ring
  rw [hA, hB] at h
  exact h

/-- The haversine term lies in `[0, 1]` for all real coordinates. -/
theorem haversineA_mem (p q : GeoPoint) : 0 ≤ haversineA p q ∧ haversineA p q ≤ 1 := by
  unfold haversineA
  simp only
  have hd : (q.lat - p.lat) * Real.pi / 180 / 2
      = (q.lat * Real.pi / 180 - p.lat * Real.pi / 180) / 2 := by ring
  rw [hd, cos_mul_cos_half (p.lat * Real.pi / 180) (q.lat * Real.pi / 180)]
  have h1 := Real.sin_sq_le_one ((q.lat * Real.pi / 180 - p.lat * Real.pi / 180) / 2)
  have h2 := Real.cos_sq_le_one ((p.lat * Real.pi / 180 + q.lat * Real.pi / 180) / 2)
  have h3 := Real.sin_sq_le_one ((q.lon - p.lon) * Real.pi / 180 / 2)
  generalize Real.sin ((q.lat * Real.pi / 180 - p.lat * Real.pi / 180) / 2) = sb at *
  generalize Real.cos ((p.lat * Real.pi / 180 + q.lat * Real.pi / 180) / 2) = ca at *
  generalize Real.sin ((q.lon - p.lon) * Real.pi / 180 / 2) = s at *
  have k1 : 0 ≤ sb ^ 2 * (1 - s ^ 2) := mul_nonneg (sq_nonneg sb) (by linarith)
  have k2 : 0 ≤ ca ^ 2 * s ^ 2 := mul_nonneg (sq_nonneg ca) (sq_nonneg s)
  have k3 : 0 ≤ (1 - sb ^ 2) * (1 - s ^ 2) := mul_nonneg (by linarith) (by linarith)
  have k4 : 0 ≤ (1 - ca ^ 2) * s ^ 2 := mul_nonneg (by linarith) (sq_nonneg s)
  constructor
  · nlinarith [k1, k2]
  · nlinarith [k3, k4]

/-- On non-negative arguments `atan2` lies in `[0, π/2]`. -/
theorem atan2_nonneg_args (y x : ℝ) (hy : 0 ≤ y) (hx : 0 ≤ x) :
    0 ≤ atan2 y x ∧ atan2 y x ≤ Real.pi / 2 := by
  have hpi := Real.pi_pos
  rcases hx.lt_or_eq with hx' | hx'
  · rw [atan2_of_pos y x hx']
    have hq : 0 ≤ y / x := div_nonneg hy hx
    have := Real.arctan_strictMono.monotone hq
    rw [Real.arctan_zero] at this
    exact ⟨this, (Real.arctan_lt_pi_div_two _).le⟩
  · subst hx'
    rcases hy.lt_or_eq with hy' | hy'
    · have e : atan2 y 0 = Real.pi / 2 := by simp [atan2, hy']
      rw [e]
      exact ⟨by linarith, le_rfl⟩
    · subst hy'
      rw [atan2_zero_zero]
      exact ⟨le_rfl, by linarith⟩

/-- With the arithmetic read over the real numbers, the haversine term `a` of
`calculateDistance` satisfies `0 ≤ a ≤ 1` for all latitudes and longitudes, so
both square-root arguments `a` and `1 - a` are non-negative and the distance
lies in `[0, 6371 π]`.  The code computes in double precision, where `a` can
exceed `1`. -/
theorem calculateDistance_range_real (p q : GeoPoint) :
    (0 ≤ haversineA p q ∧ haversineA p q ≤ 1) ∧
    (0 ≤ 1 - haversineA p q) ∧
    (0 ≤ Real.sqrt (haversineA p q) ∧ 0 ≤ Real.sqrt (1 - haversineA p q)) ∧
    (0 ≤ calculateDistance p q ∧ calculateDistance p q ≤ 6371 * Real.pi) := by
  obtain ⟨ha0, ha1⟩ := haversineA_mem p q
  obtain ⟨hc0, hc1⟩ := atan2_nonneg_args (Real.sqrt (haversineA p q))
    (Real.sqrt (1 - haversineA p q)) (Real.sqrt_nonneg _) (Real.sqrt_nonneg _)
  refine ⟨⟨ha0, ha1⟩, by linarith, ⟨Real.sqrt_nonneg _, Real.sqrt_nonneg _⟩, ?_, ?_⟩
  · unfold calculateDistance
    simp only
    linarith
  · unfold calculateDistance
    simp only
    linarith

/-! ## Lemmas on rounding a real number to double precision -/

theorem roundHalfEvenReal_of_near (m : ℝ) (k : ℤ) (h1 : (k : ℝ) - 1 / 2 < m)
    (h2 : m < k + 1 / 2) : roundHalfEvenReal m = k := by
  unfold roundHalfEvenReal
  rcases le_or_lt (k : ℝ) m with h | h
  · have hf : ⌊m⌋ = k := by
      rw [Int.floor_eq_iff]; constructor <;> linarith
    rw [hf, if_pos (by linarith)]
  · have hf : ⌊m⌋ = k - 1 := by
      rw [Int.floor_eq_iff]; push_cast; constructor <;> linarith
    rw [hf, if_neg (by push_cast; linarith), if_pos (by push_cast; linarith)]
    ring

theorem int_log_two_eq_real (r : ℝ) (e : ℤ) (h1 : (2 : ℝ) ^ e ≤ r) (h2 : r < (2 : ℝ) ^ (e + 1)) :
    Int.log 2 r = e := by
  have hr : 0 < r := lt_of_lt_of_le (by positivity) h1
  have a : e ≤ Int.log 2 r := by
    rw [← Int.zpow_le_iff_le_log (by norm_num) hr]; exact_mod_cast h1
  have b : Int.log 2 r < e + 1 := by
    rw [← Int.lt_zpow_iff_log_lt (by norm_num) hr]; exact_mod_cast h2
  omega

/-- Evaluation of `f64RoundReal` on a positive real number strictly between
two rounding boundaries. -/
theorem f64RoundReal_eval (r : ℝ) (e k : ℤ) (h1 : (2 : ℝ) ^ e ≤ r) (h2 : r < (2 : ℝ) ^ (e + 1))
    (h3 : (k : ℝ) - 1 / 2 < r / (2 : ℝ) ^ (e - 52)) (h4 : r / (2 : ℝ) ^ (e - 52) < k + 1 / 2) :
    f64RoundReal r = (k : ℚ) * (2 : ℚ) ^ (e - 52) := by
  have hr : 0 < r := lt_of_lt_of_le (by positivity) h1
  unfold f64RoundReal
  rw [if_neg hr.ne', abs_of_pos hr, int_log_two_eq_real r e h1 h2,
    roundHalfEvenReal_of_near _ k h3 h4]

/-! ## Enclosures of sine and cosine -/

/-- The partial sums of the exponential series at `x * I`, split into the
cosine and sine polynomials. -/
theorem exp_partial_sum_mul_I (x : ℝ) (N : ℕ) :
    ∑ m ∈ Finset.range (2 * N), ((x : ℂ) * Complex.I) ^ m / (m.factorial : ℂ)
      = ((∑ k ∈ Finset.range N, (-1) ^ k * x ^ (2 * k) / ((2 * k).factorial : ℝ) : ℝ) : ℂ)
        + ((∑ k ∈ Finset.range N, (-1) ^ k * x ^ (2 * k + 1) / ((2 * k + 1).factorial : ℝ) : ℝ) : ℂ)
          * Complex.I := by
  induction N with
  | zero => simp
  | succ n ih =>
    rw [show 2 * (n + 1) = 2 * n + 1 + 1 by ring, Finset.sum_range_succ, Finset.sum_range_succ, ih,
      Finset.sum_range_succ, Finset.sum_range_succ]
    have h1 : ((x : ℂ) * Complex.I) ^ (2 * n) = ((-1) ^ n * x ^ (2 * n) : ℝ) := by
      rw [mul_pow, pow_mul Complex.I, Complex.I_sq]
      push_cast
      ring
    have h2 : ((x : ℂ) * Complex.I) ^ (2 * n + 1) = ((-1) ^ n * x ^ (2 * n + 1) : ℝ) * Complex.I := by
      rw [pow_succ, h1]
      push_cast
      ring
    rw [h1, h2]
    push_cast
    ring

theorem re_exp_sub (x C S : ℝ) :
    (Complex.exp ((x : ℂ) * Complex.I) - ((C : ℂ) + (S : ℂ) * Complex.I)).re
      = Real.cos x - C := by
  simp [Complex.exp_ofReal_mul_I_re]

theorem im_exp_sub (x C S : ℝ) :
    (Complex.exp ((x : ℂ) * Complex.I) - ((C : ℂ) + (S : ℂ) * Complex.I)).im
      = Real.sin x - S := by
  simp [Complex.exp_ofReal_mul_I_im]

/-- Enclosure of the cosine by its Taylor polynomial, for `|x| ≤ 1`. -/
theorem cos_taylor_bound (x : ℝ) (hx : |x| ≤ 1) (N : ℕ) (hN : 0 < N) :
    |Real.cos x - ∑ k ∈ Finset.range N, (-1) ^ k * x ^ (2 * k) / ((2 * k).factorial : ℝ)|
      ≤ |x| ^ (2 * N) * (((2 * N).succ : ℝ) * (((2 * N).factorial : ℝ) * ((2 * N : ℕ) : ℝ))⁻¹) := by
  have hb := Complex.exp_bound (x := (x : ℂ) * Complex.I) (by simpa using hx)
    (n := 2 * N) (by omega)
  rw [exp_partial_sum_mul_I] at hb
  have habs : Complex.abs ((x : ℂ) * Complex.I) = |x| := by simp
  rw [habs] at hb
  refine le_trans ?_ hb
  rw [← re_exp_sub x _
    (∑ k ∈ Finset.range N, (-1) ^ k * x ^ (2 * k + 1) / ((2 * k + 1).factorial : ℝ))]
  exact Complex.abs_re_le_abs _

/-- Enclosure of the sine by its Taylor polynomial, for `|x| ≤ 1`. -/
theorem sin_taylor_bound (x : ℝ) (hx : |x| ≤ 1) (N : ℕ) (hN : 0 < N) :
    |Real.sin x - ∑ k ∈ Finset.range N, (-1) ^ k * x ^ (2 * k + 1) / ((2 * k + 1).factorial : ℝ)|
      ≤ |x| ^ (2 * N) * (((2 * N).succ : ℝ) * (((2 * N).factorial : ℝ) * ((2 * N : ℕ) : ℝ))⁻¹) := by
  have hb := Complex.exp_bound (x := (x : ℂ) * Complex.I) (by simpa using hx)
    (n := 2 * N) (by omega)
  rw [exp_partial_sum_mul_I] at hb
  have habs : Complex.abs ((x : ℂ) * Complex.I) = |x| := by simp
  rw [habs] at hb
  refine le_trans ?_ hb
  rw [← im_exp_sub x
    (∑ k ∈ Finset.range N, (-1) ^ k * x ^ (2 * k) / ((2 * k).factorial : ℝ)) _]
  exact Complex.abs_im_le_abs _

/-! ## The antipodal pair `(-12, -180)`, `(12, 0)` in double precision -/

/-- Enclosure of the sine of the binary64 number `0.20943951023931953`. -/
theorem sin_enclosure :
    (20791169081775932005 / 10 ^ 20 : ℝ) < Real.sin (7545853602163669 / 36028797018963968) ∧
    Real.sin (7545853602163669 / 36028797018963968) < (20791169081775932008 / 10 ^ 20 : ℝ) := by
  have hb := sin_taylor_bound (7545853602163669 / 36028797018963968)
    (by rw [abs_le]; constructor <;> norm_num) 7 (by norm_num)
  rw [abs_of_pos (by norm_num : (0 : ℝ) < 7545853602163669 / 36028797018963968)] at hb
  simp only [Finset.sum_range_succ, Finset.sum_range_zero] at hb
  norm_num [Nat.factorial] at hb
  have h := abs_le.1 hb
  exact ⟨lt_of_lt_of_le (by norm_num) (le_sub_iff_add_le.1 h.1),
    lt_of_le_of_lt (sub_le_iff_le_add.1 h.2) (by norm_num)⟩

/-- Enclosure of the cosine of the binary64 number `0.20943951023931953`. -/
theorem cos_enclosure :
    (97814760073380564153 / 10 ^ 20 : ℝ) < Real.cos (7545853602163669 / 36028797018963968) ∧
    Real.cos (7545853602163669 / 36028797018963968) < (97814760073380564156 / 10 ^ 20 : ℝ) := by
  have hb := cos_taylor_bound (7545853602163669 / 36028797018963968)
    (by rw [abs_le]; constructor <;> norm_num) 7 (by norm_num)
  rw [abs_of_pos (by norm_num : (0 : ℝ) < 7545853602163669 / 36028797018963968)] at hb
  simp only [Finset.sum_range_succ, Finset.sum_range_zero] at hb
  norm_num [Nat.factorial] at hb
  have h := abs_le.1 hb
  exact ⟨lt_of_lt_of_le (by norm_num) (le_sub_iff_add_le.1 h.1),
    lt_of_le_of_lt (sub_le_iff_le_add.1 h.2) (by norm_num)⟩

/-- `Math.sin` at the binary64 number `0.20943951023931953`. -/
theorem mathSin_twelve_degrees :
    mathSin (7545853602163669 / 36028797018963968) = (7490808106342645 / 36028797018963968) := by
  obtain ⟨h1, h2⟩ := sin_enclosure
  unfold mathSin
  push_cast
  rw [f64RoundReal_eval _ (-3) 7490808106342645 (by norm_num; linarith) (by norm_num; linarith)
    (by norm_num; linarith) (by norm_num; linarith)]
  norm_num

/-- `Math.cos` at the binary64 number `0.20943951023931953`. -/
theorem mathCos_twelve_degrees :
    mathCos (7545853602163669 / 36028797018963968) = (68831018284033 / 70368744177664) := by
  obtain ⟨h1, h2⟩ := cos_enclosure
  unfold mathCos
  push_cast
  rw [f64RoundReal_eval _ (-1) 8810370340356224 (by norm_num; linarith) (by norm_num; linarith)
    (by norm_num; linarith) (by norm_num; linarith)]
  norm_num

/-- `Math.cos` at the binary64 number `-0.20943951023931953`. -/
theorem mathCos_neg_twelve_degrees :
    mathCos (-7545853602163669 / 36028797018963968) = (68831018284033 / 70368744177664) := by
  have h := mathCos_twelve_degrees
  unfold mathCos at h ⊢
  rw [← h]
  congr 1
  push_cast
  rw [show ((-7545853602163669 / 36028797018963968 : ℝ)) = -(7545853602163669 / 36028797018963968) by norm_num, Real.cos_neg]

/-- `Math.sin` at the binary64 number `1.5707963267948966`, half of `Math.PI`. -/
theorem mathSin_half_pi :
    mathSin (884279719003555 / 562949953421312) = 1 := by
  have hlo := Real.pi_gt_d20
  have hhi := Real.pi_lt_d20
  have hle : Real.sin (884279719003555 / 562949953421312 : ℝ) ≤ 1 := Real.sin_le_one _
  have hge : 1 - 1 / 10 ^ 20 ≤ Real.sin (884279719003555 / 562949953421312 : ℝ) := by
    have hc := Real.one_sub_sq_div_two_le_cos (x := Real.pi / 2 - 884279719003555 / 562949953421312)
    rw [Real.cos_pi_div_two_sub] at hc
    have d0 : 0 ≤ Real.pi / 2 - 884279719003555 / 562949953421312 := by norm_num at hlo ⊢; linarith
    have d1 : Real.pi / 2 - 884279719003555 / 562949953421312 ≤ 1 / 10 ^ 10 := by norm_num at hhi ⊢; linarith
    have d2 : (Real.pi / 2 - 884279719003555 / 562949953421312) ^ 2 ≤ (1 / 10 ^ 10) ^ 2 :=
      pow_le_pow_left₀ d0 d1 2
    norm_num at d2 hc ⊢
    linarith
  unfold mathSin
  push_cast
  rcases hle.eq_or_lt with h | h
  · rw [h, f64RoundReal_eval 1 0 4503599627370496 (by norm_num) (by norm_num) (by norm_num)
      (by norm_num)]
    norm_num
  · rw [f64RoundReal_eval _ (-1) 9007199254740992 (by norm_num at hge ⊢; linarith)
      (by norm_num; linarith) (by norm_num at hge ⊢; linarith) (by norm_num; linarith)]
    norm_num

/-- C11 (the code at the failing input). As the code computes, in double
precision with `Math.sin` and `Math.cos` correctly rounded, the haversine term
of the antipodal pair `(-12, -180)`, `(12, 0)` is `1 + 2⁻⁵²`, above `1`; the
argument `1 - a` of the second square root is then negative, `Math.sqrt`
returns `NaN`, and `calculateDistance` returns `NaN`. -/
theorem calculateDistanceF64_antipodal :
    haversineAF64 { lat := -12, lon := -180 } { lat := 12, lon := 0 } = 1 + 1 / 2 ^ 52 ∧
    f64Sub 1 (haversineAF64 { lat := -12, lon := -180 } { lat := 12, lon := 0 }) < 0 ∧
    calculateDistanceF64 { lat := -12, lon := -180 } { lat := 12, lon := 0 } = none := by
  have h1 : f64Mul (-12) (884279719003555 / 281474976710656) = (-2652839157010665 / 70368744177664) :=
    (congrArg f64Round (by norm_num : (((-12) : ℚ) * (884279719003555 / 281474976710656)) = (-2652839157010665 / 70368744177664))).trans
      (f64Round_of_neg (-2652839157010665 / 70368744177664) (2652839157010665 / 70368744177664) (-2652839157010665 / 70368744177664) (2652839157010665 / 70368744177664) (by norm_num)
      ((f64Round_eval_down (2652839157010665 / 70368744177664) (5) 5305678314021330 (by norm_num) (by norm_num) (by norm_num)
      (by norm_num)).trans (by norm_num)) (by norm_num))
  have h2 : f64Div (-2652839157010665 / 70368744177664) 180 = (-7545853602163669 / 36028797018963968) :=
    (congrArg f64Round (by norm_num : (((-2652839157010665 / 70368744177664) : ℚ) / 180) = (-176855943800711 / 844424930131968))).trans
      (f64Round_of_neg (-176855943800711 / 844424930131968) (176855943800711 / 844424930131968) (-7545853602163669 / 36028797018963968) (7545853602163669 / 36028797018963968) (by norm_num)
      ((f64Round_eval_down (176855943800711 / 844424930131968) (-3) 7545853602163669 (by norm_num) (by norm_num) (by norm_num)
      (by norm_num)).trans (by norm_num)) (by norm_num))
  have h3 : f64Mul 12 (884279719003555 / 281474976710656) = (2652839157010665 / 70368744177664) :=
    (congrArg f64Round (by norm_num : ((12 : ℚ) * (884279719003555 / 281474976710656)) = (2652839157010665 / 70368744177664))).trans
      ((f64Round_eval_down (2652839157010665 / 70368744177664) (5) 5305678314021330 (by norm_num) (by norm_num) (by norm_num)
      (by norm_num)).trans (by norm_num))
  have h4 : f64Div (2652839157010665 / 70368744177664) 180 = (7545853602163669 / 36028797018963968) :=
    (congrArg f64Round (by norm_num : (((2652839157010665 / 70368744177664) : ℚ) / 180) = (176855943800711 / 844424930131968))).trans
      ((f64Round_eval_down (176855943800711 / 844424930131968) (-3) 7545853602163669 (by norm_num) (by norm_num) (by norm_num)
      (by norm_num)).trans (by norm_num))
  have h5 : f64Sub 12 (-12) = 24 :=
    (congrArg f64Round (by norm_num : ((12 : ℚ) - (-12)) = 24)).trans
      ((f64Round_eval_down 24 (4) 6755399441055744 (by norm_num) (by norm_num) (by norm_num)
      (by norm_num)).trans (by norm_num))
  have h6 : f64Mul 24 (884279719003555 / 281474976710656) = (2652839157010665 / 35184372088832) :=
    (congrArg f64Round (by norm_num : ((24 : ℚ) * (884279719003555 / 281474976710656)) = (2652839157010665 / 35184372088832))).trans
      ((f64Round_eval_down (2652839157010665 / 35184372088832) (6) 5305678314021330 (by norm_num) (by norm_num) (by norm_num)
      (by norm_num)).trans (by norm_num))
  have h7 : f64Div (2652839157010665 / 35184372088832) 180 = (7545853602163669 / 18014398509481984) :=
    (congrArg f64Round (by norm_num : (((2652839157010665 / 35184372088832) : ℚ) / 180) = (176855943800711 / 422212465065984))).trans
      ((f64Round_eval_down (176855943800711 / 422212465065984) (-2) 7545853602163669 (by norm_num) (by norm_num) (by norm_num)
      (by norm_num)).trans (by norm_num))
  have h8 : f64Div (7545853602163669 / 18014398509481984) 2 = (7545853602163669 / 36028797018963968) :=
    (congrArg f64Round (by norm_num : (((7545853602163669 / 18014398509481984) : ℚ) / 2) = (7545853602163669 / 36028797018963968))).trans
      ((f64Round_eval_down (7545853602163669 / 36028797018963968) (-3) 7545853602163669 (by norm_num) (by norm_num) (by norm_num)
      (by norm_num)).trans (by norm_num))
  have h9 : f64Sub 0 (-180) = 180 :=
    (congrArg f64Round (by norm_num : ((0 : ℚ) - (-180)) = 180)).trans
      ((f64Round_eval_down 180 (7) 6333186975989760 (by norm_num) (by norm_num) (by norm_num)
      (by norm_num)).trans (by norm_num))
  have h10 : f64Mul 180 (884279719003555 / 281474976710656) = (4974073419394997 / 8796093022208) :=
    (congrArg f64Round (by norm_num : ((180 : ℚ) * (884279719003555 / 281474976710656)) = (39792587355159975 / 70368744177664))).trans
      ((f64Round_eval_up (39792587355159975 / 70368744177664) (9) 4974073419394996 (by norm_num) (by norm_num) (by norm_num)
      (by norm_num)).trans (by norm_num))
  have h11 : f64Div (4974073419394997 / 8796093022208) 180 = (884279719003555 / 281474976710656) :=
    (congrArg f64Round (by norm_num : (((4974073419394997 / 8796093022208) : ℚ) / 180) = (4974073419394997 / 1583296743997440))).trans
      ((f64Round_eval_down (4974073419394997 / 1583296743997440) (1) 7074237752028440 (by norm_num) (by norm_num) (by norm_num)
      (by norm_num)).trans (by norm_num))
  have h12 : f64Div (884279719003555 / 281474976710656) 2 = (884279719003555 / 562949953421312) :=
    (congrArg f64Round (by norm_num : (((884279719003555 / 281474976710656) : ℚ) / 2) = (884279719003555 / 562949953421312))).trans
      ((f64Round_eval_down (884279719003555 / 562949953421312) (0) 7074237752028440 (by norm_num) (by norm_num) (by norm_num)
      (by norm_num)).trans (by norm_num))
  have h101 : f64Mul (7490808106342645 / 36028797018963968) (7490808106342645 / 36028797018963968) = (6229706315924309 / 144115188075855872) :=
    (congrArg f64Round (by norm_num : (((7490808106342645 / 36028797018963968) : ℚ) * (7490808106342645 / 36028797018963968)) = (56112206086048683123078145596025 / 1298074214633706907132624082305024))).trans
      ((f64Round_eval_up (56112206086048683123078145596025 / 1298074214633706907132624082305024) (-5) 6229706315924308 (by norm_num) (by norm_num) (by norm_num)
      (by norm_num)).trans (by norm_num))
  have h102 : f64Mul (68831018284033 / 70368744177664) (68831018284033 / 70368744177664) = (2154460652498931 / 2251799813685248) :=
    (congrArg f64Round (by norm_num : (((68831018284033 / 70368744177664) : ℚ) * (68831018284033 / 70368744177664)) = (4737709078016885151862745089 / 4951760157141521099596496896))).trans
      ((f64Round_eval_up (4737709078016885151862745089 / 4951760157141521099596496896) (-1) 8617842609995723 (by norm_num) (by norm_num) (by norm_num)
      (by norm_num)).trans (by norm_num))
  have h103 : f64Mul (2154460652498931 / 2251799813685248) 1 = (2154460652498931 / 2251799813685248) :=
    (congrArg f64Round (by norm_num : (((2154460652498931 / 2251799813685248) : ℚ) * 1) = (2154460652498931 / 2251799813685248))).trans
      ((f64Round_eval_down (2154460652498931 / 2251799813685248) (-1) 8617842609995724 (by norm_num) (by norm_num) (by norm_num)
      (by norm_num)).trans (by norm_num))
  have h104 : f64Add (6229706315924309 / 144115188075855872) (2154460652498931 / 2251799813685248) = (4503599627370497 / 4503599627370496) :=
    (congrArg f64Round (by norm_num : (((6229706315924309 / 144115188075855872) : ℚ) + (2154460652498931 / 2251799813685248)) = (144115188075855893 / 144115188075855872))).trans
      ((f64Round_eval_up (144115188075855893 / 144115188075855872) (0) 4503599627370496 (by norm_num) (by norm_num) (by norm_num)
      (by norm_num)).trans (by norm_num))
  have h105 : f64Sub 1 (4503599627370497 / 4503599627370496) = (-1 / 4503599627370496) :=
    (congrArg f64Round (by norm_num : ((1 : ℚ) - (4503599627370497 / 4503599627370496)) = (-1 / 4503599627370496))).trans
      (f64Round_of_neg (-1 / 4503599627370496) (1 / 4503599627370496) (-1 / 4503599627370496) (1 / 4503599627370496) (by norm_num)
      ((f64Round_eval_down (1 / 4503599627370496) (-52) 4503599627370496 (by norm_num) (by norm_num) (by norm_num)
      (by norm_num)).trans (by norm_num)) (by norm_num))
  have ha : haversineAF64 { lat := -12, lon := -180 } { lat := 12, lon := 0 }
      = (4503599627370497 / 4503599627370496) := by
    unfold haversineAF64 mathPI
    simp only [h1, h2, h3, h4, h5, h6, h7, h8, h9, h10, h11, h12, mathSin_twelve_degrees, mathCos_twelve_degrees,
      mathCos_neg_twelve_degrees, mathSin_half_pi, h101, h102, h103, h104, h105]
  refine ⟨by rw [ha]; norm_num, by rw [ha, h105]; norm_num, ?_⟩
  unfold calculateDistanceF64
  rw [ha]
  simp only [h105]
  have hneg : (-1 / 4503599627370496 : ℚ) < 0 := by norm_num
  simp [mathSqrt, mathAtan2, hneg]

/-! ## Link budget -/

theorem log10_gt_of_pow_lt (x : ℝ) (p q : ℕ) (hq : 0 < q)
    (h : (10 : ℝ) ^ p < x ^ q) : (p : ℝ) / q < log10 x := by
  have h1 : Real.log ((10 : ℝ) ^ p) < Real.log (x ^ q) := Real.log_lt_log (by positivity) h
  rw [Real.log_pow, Real.log_pow] at h1
  have hl : 0 < Real.log 10 := Real.log_pos (by norm_num)
  have hq' : (0 : ℝ) < q := by exact_mod_cast hq
  rw [log10, div_lt_div_iff₀ hq' hl]
  linarith

theorem log10_lt_of_pow_lt (x : ℝ) (p q : ℕ) (hq : 0 < q) (hx : 0 < x)
    (h : x ^ q < (10 : ℝ) ^ p) : log10 x < (p : ℝ) / q := by
  have h1 : Real.log (x ^ q) < Real.log ((10 : ℝ) ^ p) := Real.log_lt_log (by positivity) h
  rw [Real.log_pow, Real.log_pow] at h1
  have hl : 0 < Real.log 10 := Real.log_pos (by norm_num)
  have hq' : (0 : ℝ) < q := by exact_mod_cast hq
  rw [log10, div_lt_div_iff₀ hl hq']
  linarith

theorem log10_ten : log10 10 = 1 := by
  unfold log10
  exact div_self (Real.log_pos (by norm_num)).ne'

/-- Bounds on `log10 146.52`. -/
theorem log10_frequency_bounds :
    (379 : ℝ) / 175 < log10 146.52 ∧ log10 146.52 < (470 : ℝ) / 217 := by
  constructor
  · have := log10_gt_of_pow_lt 146.52 379 175 (by norm_num) (by norm_num)
    exact_mod_cast this
  · have := log10_lt_of_pow_lt 146.52 470 217 (by norm_num) (by norm_num) (by norm_num)
    exact_mod_cast this

/-- Bounds on `log10 5000`. -/
theorem log10_power_bounds : (270 : ℝ) / 73 < log10 5000 ∧ log10 5000 < (381 : ℝ) / 103 := by
  constructor
  · have := log10_gt_of_pow_lt 5000 270 73 (by norm_num) (by norm_num)
    exact_mod_cast this
  · have := log10_lt_of_pow_lt 5000 381 103 (by norm_num) (by norm_num) (by norm_num)
    exact_mod_cast this

/-- The link budget of the fixture in terms of the two logarithms. -/
theorem updateRadioCalculations_fixture :
    (updateRadioCalculations (some 146.52) (some 5) (some 2) 10).freeSpaceLoss
        = 52.44 + 20 * log10 146.52 ∧
    (updateRadioCalculations (some 146.52) (some 5) (some 2) 10).pathLoss
        = 53.44 + 20 * log10 146.52 ∧
    (updateRadioCalculations (some 146.52) (some 5) (some 2) 10).signalStrength
        = 10 * log10 5000 - (53.44 + 20 * log10 146.52) + 2.15 := by
  have h1 : orDefault (some 146.52) 146.52 = 146.52 := by
    unfold orDefault; norm_num
  have h2 : orDefault (some 5) 5 = 5 := by
    unfold orDefault; norm_num
  have h3 : min ((10 : ℝ) * 0.1) 10 = 1 := by norm_num
  have h4 : (5 : ℝ) * 1000 = 5000 := by norm_num
  unfold updateRadioCalculations
  simp only [h1, h2, h3, h4, log10_ten]
  refine ⟨by ring, by ring, by ring⟩

/-- C8. The QSO probability of `updateRadioCalculations` is the step function
`qsoProbability` of the signal strength, with lower-inclusive buckets: for
every real `s` it is 10 below -120, 30 on `[-120, -100)`, 60 on `[-100, -80)`,
80 on `[-80, -60)` and 100 from -60 on; so -60 gives 100, -60.01 gives 80,
-100 gives 60 and -120 gives 30, and the value is always one of 10, 30, 60, 80,
100. -/
theorem qsoProbability_step (s : ℝ) :
    (∀ f p h : Option ℝ, ∀ d : ℝ, (updateRadioCalculations f p h d).qsoProbability
        = qsoProbability (updateRadioCalculations f p h d).signalStrength) ∧
    (s < -120 → qsoProbability s = 10) ∧
    (-120 ≤ s → s < -100 → qsoProbability s = 30) ∧
    (-100 ≤ s → s < -80 → qsoProbability s = 60) ∧
    (-80 ≤ s → s < -60 → qsoProbability s = 80) ∧
    (-60 ≤ s → qsoProbability s = 100) ∧
    qsoProbability s ∈ [10, 30, 60, 80, 100] ∧
    qsoProbability (-60 : ℝ) = 100 ∧ qsoProbability (-60.01 : ℝ) = 80 ∧
    qsoProbability (-100 : ℝ) = 60 ∧ qsoProbability (-120 : ℝ) = 30 := by
  refine ⟨fun _ _ _ _ => rfl, ?_, ?_, ?_, ?_, ?_, ?_, ?_, ?_, ?_, ?_⟩
  · intro h
    simp [qsoProbability, h]
  · intro h1 h2
    simp [qsoProbability, not_lt.2 h1, h2]
  · intro h1 h2
    have h0 : ¬ s < -120 := by linarith
    simp [qsoProbability, h0, not_lt.2 h1, h2]
  · intro h1 h2
    have h0 : ¬ s < -120 := by linarith
    have h0' : ¬ s < -100 := by linarith
    simp [qsoProbability, h0, h0', not_lt.2 h1, h2]
  · intro h1
    have h0 : ¬ s < -120 := by linarith
    have h0' : ¬ s < -100 := by linarith
    have h0'' : ¬ s < -80 := by linarith
    simp [qsoProbability, h0, h0', h0'', not_lt.2 h1]
  · unfold qsoProbability
    split_ifs <;> simp
  · norm_num [qsoProbability]
  · norm_num [qsoProbability]
  · norm_num [qsoProbability]
  · norm_num [qsoProbability]

/-- Witness of C8 at the signal strength -70 dBm, inside the bucket `[-80, -60)`. -/
theorem qsoProbability_step_witness :
    (-80 : ℝ) ≤ -70 ∧ (-70 : ℝ) < -60 ∧ qsoProbability (-70 : ℝ) = 80 :=
  ⟨by norm_num, by norm_num,
    (qsoProbability_step (-70)).2.2.2.2.1 (by norm_num) (by norm_num)⟩

/-- C9 (counterexample). For 146.52 MHz, 5 W, 2 m and 10 km the three losses
computed by `updateRadioCalculations` are each more than 0.01 away from the
claimed 97.76 dB, 98.76 dB and -59.65 dBm. -/
theorem updateRadioCalculations_fixture_off :
    0.01 < |(updateRadioCalculations (some 146.52) (some 5) (some 2) 10).freeSpaceLoss
        - 97.76| ∧
    0.01 < |(updateRadioCalculations (some 146.52) (some 5) (some 2) 10).pathLoss
        - 98.76| ∧
    0.01 < |(updateRadioCalculations (some 146.52) (some 5) (some 2) 10).signalStrength
        - (-59.65)| := by
  obtain ⟨e1, e2, e3⟩ := updateRadioCalculations_fixture
  obtain ⟨a1, a2⟩ := log10_frequency_bounds
  obtain ⟨b1, b2⟩ := log10_power_bounds
  rw [e1, e2, e3]
  refine ⟨?_, ?_, ?_⟩
  · rw [lt_abs]; right; norm_num; linarith
  · rw [lt_abs]; right; norm_num; linarith
  · rw [lt_abs]; left; norm_num; linarith

/-- C9 (amended). For 146.52 MHz, 5 W, 2 m and 10 km the link budget of
`updateRadioCalculations` over the reals gives a free-space loss within
0.01 dB of 95.76, a path loss within 0.01 dB of 96.76, a signal strength within
0.01 dBm of -57.62, and a QSO probability of 100. -/
theorem updateRadioCalculations_fixture_values :
    |(updateRadioCalculations (some 146.52) (some 5) (some 2) 10).freeSpaceLoss - 95.76|
        ≤ 0.01 ∧
    |(updateRadioCalculations (some 146.52) (some 5) (some 2) 10).pathLoss - 96.76|
        ≤ 0.01 ∧
    |(updateRadioCalculations (some 146.52) (some 5) (some 2) 10).signalStrength - (-57.62)|
        ≤ 0.01 ∧
    (updateRadioCalculations (some 146.52) (some 5) (some 2) 10).qsoProbability = 100 := by
  obtain ⟨e1, e2, e3⟩ := updateRadioCalculations_fixture
  obtain ⟨a1, a2⟩ := log10_frequency_bounds
  obtain ⟨b1, b2⟩ := log10_power_bounds
  have hq : (updateRadioCalculations (some 146.52) (some 5) (some 2) 10).qsoProbability
      = qsoProbability
          (updateRadioCalculations (some 146.52) (some 5) (some 2) 10).signalStrength := rfl
  rw [hq, e1, e2, e3]
  refine ⟨?_, ?_, ?_, ?_⟩
  · rw [abs_le]; constructor <;> norm_num <;> linarith
  · rw [abs_le]; constructor <;> norm_num <;> linarith
  · rw [abs_le]; constructor <;> norm_num <;> linarith
  · have h60 : ¬ (10 * log10 5000 - (53.44 + 20 * log10 146.52) + 2.15 < -60) := by
      rw [not_lt]; norm_num; linarith
    have h80 : ¬ (10 * log10 5000 - (53.44 + 20 * log10 146.52) + 2.15 < -80) := by
      rw [not_lt]; norm_num; linarith
    have h100 : ¬ (10 * log10 5000 - (53.44 + 20 * log10 146.52) + 2.15 < -100) := by
      rw [not_lt]; norm_num; linarith
    have h120 : ¬ (10 * log10 5000 - (53.44 + 20 * log10 146.52) + 2.15 < -120) := by
      rw [not_lt]; norm_num; linarith
    simp only [qsoProbability, h60, h80, h100, h120, if_false]

/-! ## Compass direction -/

/-- C10. For every bearing `b` in `[0, 360)` (in any ordered field with a floor,
so over the rationals and over the reals), `getBearingDirection b` is the
`k`-th of the 16 labels, where `k = round(b / 22.5) mod 16` is below 16, and the
label's centre `22.5 k` is within 11.25 degrees of `b` measured around the
circle; every `b` in `[348.75, 360)` maps to `N`. -/
theorem getBearingDirection_bucket {α : Type} [LinearOrderedField α] [FloorRing α] (b : α)
    (h0 : 0 ≤ b) (h1 : b < 360) :
    ∃ k : Nat, k < 16 ∧ (k : ℤ) = mathRound (b / 22.5) % 16 ∧
      getBearingDirection b = directions.get? k ∧
      (∃ label, label ∈ directions ∧ getBearingDirection b = some label) ∧
      min |b - 22.5 * (k : α)| (360 - |b - 22.5 * (k : α)|) ≤ 11.25 ∧
      (348.75 ≤ b → getBearingDirection b = some "N") := by
  have e : (22.5 : α) = 45 / 2 := by norm_num
  have e' : (11.25 : α) = 45 / 4 := by norm_num
  have e'' : (348.75 : α) = 1395 / 4 := by norm_num
  obtain ⟨r, hr⟩ : ∃ r : ℤ, mathRound (b / 22.5) = r := ⟨_, rfl⟩
  have hdiv : b / 22.5 = b * (2 / 45) := by rw [e]; field_simp
  have hlo : (r : α) ≤ b * (2 / 45) + 1 / 2 := by
    rw [← hr, ← hdiv]; exact Int.floor_le _
  have hhi : b * (2 / 45) + 1 / 2 < (r : α) + 1 := by
    rw [← hr, ← hdiv]; exact Int.lt_floor_add_one _
  have hr0 : 0 ≤ r := by
    rw [← hr]; exact Int.floor_nonneg.2 (by rw [hdiv]; linarith)
  have hr16 : r < 17 := by
    rw [← hr, mathRound, Int.floor_lt, hdiv]; push_cast; linarith
  have hgd : getBearingDirection b = directions.get? (r % 16).toNat := by
    unfold getBearingDirection bearingIndex
    rw [hr]
    interval_cases r <;> rfl
  rw [hgd, hr, e, e', e'']
  refine ⟨(r % 16).toNat, by omega, by omega, rfl, ?_, ?_, ?_⟩
  · interval_cases r <;> exact ⟨_, by decide, rfl⟩
  · rw [min_le_iff]
    by_cases h16 : r = 16
    · right
      subst h16
      have hk : (((16 : ℤ) % 16).toNat : α) = 0 := by norm_num
      rw [hk, mul_zero, sub_zero, abs_of_nonneg h0]
      push_cast at hlo
      linarith
    · left
      have hk : (((r % 16).toNat : ℕ) : α) = (r : α) := by
        have h2 : (((r % 16).toNat : ℕ) : ℤ) = r := by omega
        exact_mod_cast congrArg (Int.cast : ℤ → α) h2
      rw [hk, abs_le]
      constructor <;> linarith
  · intro hb
    have h16 : r = 16 := by
      have : (15 : α) < (r : α) := by linarith
      have : (15 : ℤ) < r := by exact_mod_cast this
      omega
    subst h16
    rfl

/-- Witness of C10 at the bearing 350 degrees, which maps to `N`. -/
theorem getBearingDirection_bucket_witness :
    ((0 : ℚ) ≤ 350 ∧ (350 : ℚ) < 360) ∧
    ∃ k : Nat, k < 16 ∧ (k : ℤ) = mathRound ((350 : ℚ) / 22.5) % 16 ∧
      getBearingDirection (350 : ℚ) = directions.get? k ∧
      (∃ label, label ∈ directions ∧ getBearingDirection (350 : ℚ) = some label) ∧
      min |(350 : ℚ) - 22.5 * (k : ℚ)| (360 - |(350 : ℚ) - 22.5 * (k : ℚ)|) ≤ 11.25 ∧
      ((348.75 : ℚ) ≤ 350 → getBearingDirection (350 : ℚ) = some "N") :=
  ⟨⟨by norm_num, by norm_num⟩,
    getBearingDirection_bucket (350 : ℚ) (by norm_num) (by norm_num)⟩

end BearingFinder

